import Mathlib

/-!
Verification of the idfactor identity-factoring engine.

The Go sources are shallowly embedded: slices of strings become `List String`,
`[][]string` tables become `List (List String)`, Go maps from record id to
element id become association lists with single-entry-per-key insertion,
`log.Fatal` process aborts become explicit `fatal` results, and the two
sources of randomness (`crypto/rand` draws inside `Shuffle`, random bytes
inside `uuid.New`) become explicit input streams, so every function here is a
pure, executable Lean function of the code's actual inputs.
-/

set_option maxRecDepth 8000

namespace shuffle

/-- One iteration of the loop body of `Shuffle` (`src/lib/shuffle/shuffle.go`,
line 21): `a[i], a[j] = a[j], i` where `j = draws i` is the value the secure
random source returned at iteration `i`.  Go evaluates the right-hand sides
first, so `a[i]` receives the old `a[j]` and `a[j]` receives `i`. -/
def shuffleStep (draws : Nat → Nat) (a : List Nat) (i : Nat) : List Nat :=
  let j := draws i
  (a.set i (a.getD j 0)).set j i

/-- The loop of `Shuffle` run for iterations `0, 1, ..., m-1` starting from
array `a`. -/
def shuffleIter (draws : Nat → Nat) : Nat → List Nat → List Nat
  | 0, a => a
  | m + 1, a => shuffleStep draws (shuffleIter draws m a) m

/-- `Shuffle` from `src/lib/shuffle/shuffle.go`.  `draws i` models the value
returned by `rand.Int(rand.Reader, big.NewInt(int64(i+1)))`, which always lies
in `[0, i]`.  `none` models the `log.Fatal` abort when `n < 1`.  The Go slice
`make([]int, n)` is zero-initialised, hence `List.replicate n 0`. -/
def Shuffle (draws : Nat → Nat) (n : Nat) : Option (List Nat) :=
  if n < 1 then none
  else some (shuffleIter draws n (List.replicate n 0))

/-- Modelled from the spec (section 4.1, for claim C8 only): one step of the
reference in-place Fisher–Yates shuffle, "swap `a[i]` with `a[j]`". -/
def fyStep (draws : Nat → Nat) (a : List Nat) (i : Nat) : List Nat :=
  let j := draws i
  (a.set i (a.getD j 0)).set j (a.getD i 0)

/-- The reference loop run for iterations `0, 1, ..., m-1`. -/
def fyIter (draws : Nat → Nat) : Nat → List Nat → List Nat
  | 0, a => a
  | m + 1, a => fyStep draws (fyIter draws m a) m

/-- Modelled from the spec (section 4.1, for claim C8 only): the reference
in-place Fisher–Yates, which "initializes a to the identity permutation
0..n-1 and, for i from 0 to n-1, swaps a[i] with a[j_i]". -/
def fisherYates (draws : Nat → Nat) (n : Nat) : List Nat :=
  fyIter draws n (List.range n)

theorem getD_set_self (l : List Nat) (i v : Nat) (h : i < l.length) :
    (l.set i v).getD i 0 = v := by
  induction l generalizing i with
  | nil => simp at h
  | cons a t ih =>
    cases i with
    | zero => rfl
    | succ m =>
      have hm : m < t.length := by simpa using h
      simpa using ih m hm

theorem getD_set_ne (l : List Nat) (i j v : Nat) (h : i ≠ j) :
    (l.set i v).getD j 0 = l.getD j 0 := by
  induction l generalizing i j with
  | nil => simp
  | cons a t ih =>
    cases i with
    | zero =>
      cases j with
      | zero => exact absurd rfl h
      | succ mj => simp
    | succ mi =>
      cases j with
      | zero => simp
      | succ mj =>
        have : mi ≠ mj := fun he => h (by rw [he])
        simpa using ih mi mj this

theorem perm_cons_set (t : List Nat) (s h : Nat) (hs : s < t.length) :
    (t.getD s 0 :: t.set s h).Perm (h :: t) := by
  induction t generalizing s with
  | nil => simp at hs
  | cons a t' ih =>
    cases s with
    | zero => simpa using List.Perm.swap h a t'
    | succ m =>
      have hm : m < t'.length := by simpa using hs
      have h1 : (t'.getD m 0 :: a :: t'.set m h).Perm (a :: t'.getD m 0 :: t'.set m h) :=
        List.Perm.swap a (t'.getD m 0) (t'.set m h)
      have h2 : (a :: t'.getD m 0 :: t'.set m h).Perm (a :: h :: t') :=
        (ih m hm).cons a
      have h3 : (a :: h :: t').Perm (h :: a :: t') := List.Perm.swap h a t'
      simpa using (h1.trans h2).trans h3

/-- Swapping the entries at two in-range positions is a permutation. -/
theorem swap_set_perm (l : List Nat) (i j : Nat) (hi : i < l.length) (hj : j < l.length) :
    ((l.set i (l.getD j 0)).set j (l.getD i 0)).Perm l := by
  induction l generalizing i j with
  | nil => simp at hi
  | cons a t ih =>
    cases i with
    | zero =>
      cases j with
      | zero => simp
      | succ m =>
        have hm : m < t.length := by simpa using hj
        simpa using perm_cons_set t m a hm
    | succ mi =>
      cases j with
      | zero =>
        have hm : mi < t.length := by simpa using hi
        simpa using perm_cons_set t mi a hm
      | succ mj =>
        have hmi : mi < t.length := by simpa using hi
        have hmj : mj < t.length := by simpa using hj
        simpa using (ih mi mj hmi hmj).cons a

theorem fyIter_perm (draws : Nat → Nat) (n : Nat) (hd : ∀ i, i < n → draws i ≤ i) :
    ∀ m, m ≤ n → (fyIter draws m (List.range n)).Perm (List.range n) := by
  intro m
  induction m with
  | zero => intro _; exact List.Perm.refl _
  | succ k ih =>
    intro hk
    have hkn : k < n := hk
    have hperm := ih (Nat.le_of_lt hkn)
    have hlen : (fyIter draws k (List.range n)).length = n := by
      rw [hperm.length_eq, List.length_range]
    have hi : k < (fyIter draws k (List.range n)).length := by omega
    have hj : draws k < (fyIter draws k (List.range n)).length := by
      have := hd k hkn
      omega
    exact (swap_set_perm _ k (draws k) hi hj).trans hperm

theorem length_shuffleIter (draws : Nat → Nat) (m : Nat) (a : List Nat) :
    (shuffleIter draws m a).length = a.length := by
  induction m with
  | zero => rfl
  | succ k ih => simp [shuffleIter, shuffleStep, ih]

theorem length_fyIter (draws : Nat → Nat) (m : Nat) (a : List Nat) :
    (fyIter draws m a).length = a.length := by
  induction m with
  | zero => rfl
  | succ k ih => simp [fyIter, fyStep, ih]

theorem shuffle_eq_fy_aux (draws : Nat → Nat) (n : Nat) (hd : ∀ i, i < n → draws i ≤ i) :
    ∀ m, m ≤ n →
      (∀ k, k < m → (shuffleIter draws m (List.replicate n 0)).getD k 0
          = (fyIter draws m (List.range n)).getD k 0) ∧
      (∀ k, m ≤ k → k < n → (fyIter draws m (List.range n)).getD k 0 = k) := by
  intro m
  induction m with
  | zero =>
    intro _
    refine ⟨fun k hk => absurd hk (Nat.not_lt_zero k), fun k _ hk => ?_⟩
    simp only [fyIter]
    rw [List.getD_eq_getElem _ _ (by simpa using hk), List.getElem_range]
  | succ t ih =>
    intro ht
    have htn : t < n := ht
    obtain ⟨ihpre, ihsuf⟩ := ih (Nat.le_of_lt htn)
    have hiolen : (shuffleIter draws t (List.replicate n 0)).length = n := by
      rw [length_shuffleIter, List.length_replicate]
    have hreflen : (fyIter draws t (List.range n)).length = n := by
      rw [length_fyIter, List.length_range]
    set io := shuffleIter draws t (List.replicate n 0) with hio
    set ref := fyIter draws t (List.range n) with href
    have hj : draws t ≤ t := hd t htn
    have hrefm : ref.getD t 0 = t := ihsuf t le_rfl htn
    have hstep1 : shuffleIter draws (t + 1) (List.replicate n 0)
        = (io.set t (io.getD (draws t) 0)).set (draws t) t := rfl
    have hstep2 : fyIter draws (t + 1) (List.range n)
        = (ref.set t (ref.getD (draws t) 0)).set (draws t) (ref.getD t 0) := rfl
    rw [hstep1, hstep2, hrefm]
    rcases Nat.lt_or_ge (draws t) t with hjt | hjt
    · -- j < t : the source cell was already built, and it agrees between the two arrays
      have hagree : io.getD (draws t) 0 = ref.getD (draws t) 0 := ihpre (draws t) hjt
      constructor
      · intro k hk
        rcases Nat.eq_or_lt_of_le (Nat.le_of_lt_succ hk) with hkt | hkt
        · -- k = t
          rw [hkt]
          have hne : draws t ≠ t := Nat.ne_of_lt hjt
          rw [getD_set_ne _ _ _ _ hne, getD_set_ne _ _ _ _ hne,
            getD_set_self _ _ _ (by omega), getD_set_self _ _ _ (by omega), hagree]
        · rcases eq_or_ne k (draws t) with hkj | hkj
          · rw [hkj]
            rw [getD_set_self _ _ _ (by simp [List.length_set]; omega),
              getD_set_self _ _ _ (by simp [List.length_set]; omega)]
          · have hkj' : draws t ≠ k := fun he => hkj he.symm
            have hkt' : t ≠ k := Nat.ne_of_gt hkt
            rw [getD_set_ne _ _ _ _ hkj', getD_set_ne _ _ _ _ hkj',
              getD_set_ne _ _ _ _ hkt', getD_set_ne _ _ _ _ hkt']
            exact ihpre k hkt
      · intro k hk hkn
        have h1 : draws t ≠ k := by omega
        have h2 : t ≠ k := by omega
        rw [getD_set_ne _ _ _ _ h1, getD_set_ne _ _ _ _ h2]
        exact ihsuf k (by omega) hkn
    · -- j = t (since j ≤ t)
      have hjt' : draws t = t := Nat.le_antisymm hj hjt
      rw [hjt']
      constructor
      · intro k hk
        rcases Nat.eq_or_lt_of_le (Nat.le_of_lt_succ hk) with hkt | hkt
        · rw [hkt]
          rw [getD_set_self _ _ _ (by simp [List.length_set]; omega),
            getD_set_self _ _ _ (by simp [List.length_set]; omega)]
        · have h2 : t ≠ k := Nat.ne_of_gt hkt
          rw [getD_set_ne _ _ _ _ h2, getD_set_ne _ _ _ _ h2,
            getD_set_ne _ _ _ _ h2, getD_set_ne _ _ _ _ h2]
          exact ihpre k hkt
      · intro k hk hkn
        have h2 : t ≠ k := by omega
        rw [getD_set_ne _ _ _ _ h2, getD_set_ne _ _ _ _ h2]
        exact ihsuf k (by omega) hkn

/-- For every admissible draw sequence the Go loop over the zero-initialised
array computes exactly the reference Fisher–Yates permutation. -/
theorem shuffle_eq_fisherYates (draws : Nat → Nat) (n : Nat) (hn : 1 ≤ n)
    (hd : ∀ i, i < n → draws i ≤ i) :
    Shuffle draws n = some (fisherYates draws n) := by
  obtain ⟨hpre, _⟩ := shuffle_eq_fy_aux draws n hd n le_rfl
  have hiolen : (shuffleIter draws n (List.replicate n 0)).length = n := by
    rw [length_shuffleIter, List.length_replicate]
  have hreflen : (fyIter draws n (List.range n)).length = n := by
    rw [length_fyIter, List.length_range]
  have heq : shuffleIter draws n (List.replicate n 0) = fyIter draws n (List.range n) := by
    refine List.ext_getElem (by rw [hiolen, hreflen]) (fun i hi1 hi2 => ?_)
    have := hpre i (by omega)
    rwa [List.getD_eq_getElem _ _ hi1, List.getD_eq_getElem _ _ hi2] at this
  unfold Shuffle fisherYates
  rw [if_neg (by omega), heq]

theorem shuffle_perm_range (draws : Nat → Nat) (n : Nat) (hn : 1 ≤ n)
    (hd : ∀ i, i < n → draws i ≤ i) :
    ∀ l, Shuffle draws n = some l → l.Perm (List.range n) := by
  intro l hl
  rw [shuffle_eq_fisherYates draws n hn hd] at hl
  cases hl
  exact fyIter_perm draws n hd n le_rfl

end shuffle

/-- C1: for every `n ≥ 1` and every sequence of values the secure random
source can return (at step `i` a value in `[0, i]`), `Shuffle n` succeeds and
returns a list of length `n` that is a permutation of `[0, n)`: every index
below `n` appears exactly once. -/
theorem C1_shuffle_is_permutation (draws : Nat → Nat) (n : Nat) (hn : 1 ≤ n)
    (hd : ∀ i, i < n → draws i ≤ i) :
    ∃ l, shuffle.Shuffle draws n = some l ∧ l.length = n ∧
      l.Perm (List.range n) ∧ ∀ k, k < n → l.count k = 1 := by
  have hp : (shuffle.fisherYates draws n).Perm (List.range n) :=
    shuffle.fyIter_perm draws n hd n le_rfl
  refine ⟨shuffle.fisherYates draws n, shuffle.shuffle_eq_fisherYates draws n hn hd, ?_, hp, ?_⟩
  · rw [hp.length_eq, List.length_range]
  · intro k hk
    rw [hp.count_eq]
    exact List.count_eq_one_of_mem (List.nodup_range n) (List.mem_range.mpr hk)

theorem C1_shuffle_is_permutation_witness :
    ∃ l, shuffle.Shuffle (fun _ => 0) 3 = some l ∧ l.length = 3 ∧
      l.Perm (List.range 3) ∧ ∀ k, k < 3 → l.count k = 1 :=
  C1_shuffle_is_permutation (fun _ => 0) 3 (by omega) (fun i _ => Nat.zero_le i)

/-- C8: for every `n ≥ 1` and every fixed draw sequence `j_i ∈ [0, i]`, the
array computed by `Shuffle n` (which performs `a[i], a[j] = a[j], i` over an
initially zero array) equals the array computed by the reference in-place
Fisher–Yates that starts from the identity permutation `0..n-1` and swaps
`a[i]` with `a[j_i]` for `i` from `0` to `n-1`. -/
theorem C8_shuffle_refines_fisher_yates (draws : Nat → Nat) (n : Nat) (hn : 1 ≤ n)
    (hd : ∀ i, i < n → draws i ≤ i) :
    shuffle.Shuffle draws n = some (shuffle.fisherYates draws n) :=
  shuffle.shuffle_eq_fisherYates draws n hn hd

theorem C8_shuffle_refines_fisher_yates_witness :
    shuffle.Shuffle (fun _ => 0) 3 = some (shuffle.fisherYates (fun _ => 0) 3) ∧
    shuffle.fisherYates (fun _ => 0) 3 = [2, 0, 1] :=
  ⟨C8_shuffle_refines_fisher_yates (fun _ => 0) 3 (by omega) (fun i _ => Nat.zero_le i),
    by decide⟩

namespace uuid

/-- Lower-case hex digit for a value below 16, as produced by Go's `%x` verb
(digits `0`-`9` then letters `a`-`f`). -/
def hexDigit (n : Nat) : Char :=
  if n < 10 then Char.ofNat (48 + n) else Char.ofNat (87 + n)

/-- Go's `%x` applied to one byte: two lower-case hex digits, zero-padded. -/
def byteHex (b : Nat) : List Char :=
  [hexDigit (b / 16 % 16), hexDigit (b % 16)]

/-- Go's `%x` applied to a byte slice: the bytes' hex digits concatenated. -/
def bytesHex (bs : List Nat) : List Char :=
  bs.flatMap byteHex

/-- `New` from `src/xor/lib/uuid/uuid.go`.  `u` is the 16 random bytes read
from the secure source; the function forces the version bits
(`u[6] = (u[6] & 0x0f) | 0x40`) and the variant bits
(`u[8] = (u[8] & 0xbf) | 0x80`) and formats `u[0:4]-u[4:6]-u[6:8]-u[8:10]-u[10:]`
with `%x`. -/
def New (u : List Nat) : String :=
  let v := (u.set 6 ((u.getD 6 0 &&& 0x0f) ||| 0x40)).set 8 ((u.getD 8 0 &&& 0xbf) ||| 0x80)
  String.mk (bytesHex (v.take 4) ++ '-' :: bytesHex ((v.drop 4).take 2)
    ++ '-' :: bytesHex ((v.drop 6).take 2) ++ '-' :: bytesHex ((v.drop 8).take 2)
    ++ '-' :: bytesHex (v.drop 10))

def isHexChar (c : Char) : Bool :=
  (('0' ≤ c) && (c ≤ '9')) || (('a' ≤ c) && (c ≤ 'f'))

def isVariantChar (c : Char) : Bool :=
  (c == '8') || (c == '9') || (c == 'a') || (c == 'b')

/-- The canonical hyphenated UUIDv4 textual pattern: five hex groups of
8-4-4-4-12 lower-case hex characters separated by hyphens, version nibble `4`
(first character of the third group), variant bits `10` (first character of
the fourth group in `8`, `9`, `a`, `b`). -/
def isUuidV4 (s : String) : Bool :=
  match s.data with
  | a0 :: a1 :: a2 :: a3 :: a4 :: a5 :: a6 :: a7 :: h1 ::
    b0 :: b1 :: b2 :: b3 :: h2 ::
    c0 :: c1 :: c2 :: c3 :: h3 ::
    d0 :: d1 :: d2 :: d3 :: h4 ::
    e0 :: e1 :: e2 :: e3 :: e4 :: e5 :: e6 :: e7 :: e8 :: e9 :: e10 :: e11 :: [] =>
    (h1 == '-') && (h2 == '-') && (h3 == '-') && (h4 == '-') &&
    ([a0, a1, a2, a3, a4, a5, a6, a7, b0, b1, b2, b3, c0, c1, c2, c3,
      d0, d1, d2, d3, e0, e1, e2, e3, e4, e5, e6, e7, e8, e9, e10, e11].all isHexChar) &&
    (c0 == '4') && isVariantChar d0
  | _ => false

theorem isHexChar_hexDigit (m : Nat) (h : m < 16) : isHexChar (hexDigit m) = true := by
  interval_cases m <;> decide

theorem isHexChar_hexDigit_div (b : Nat) : isHexChar (hexDigit (b / 16 % 16)) = true :=
  isHexChar_hexDigit _ (Nat.mod_lt _ (by omega))

theorem isHexChar_hexDigit_mod (b : Nat) : isHexChar (hexDigit (b % 16)) = true :=
  isHexChar_hexDigit _ (Nat.mod_lt _ (by omega))

theorem version_char (b : Nat) (h : b < 256) :
    (hexDigit (((b &&& 0x0f) ||| 0x40) / 16 % 16) == '4') = true := by
  revert h
  revert b
  decide

theorem variant_char (b : Nat) (h : b < 256) :
    isVariantChar (hexDigit (((b &&& 0xbf) ||| 0x80) / 16 % 16)) = true := by
  revert h
  revert b
  decide

theorem exists_cons_of_length_succ (l : List Nat) (n : Nat) (h : l.length = n + 1) :
    ∃ c t, l = c :: t ∧ t.length = n := by
  cases l with
  | nil => simp at h
  | cons c t => exact ⟨c, t, rfl, by simpa using h⟩

end uuid

/-- C6: for every 16 bytes supplied by the secure random source, the string
returned by `uuid.New` matches the canonical hyphenated UUIDv4 textual
pattern (five hex groups of 8-4-4-4-12 characters), with the version nibble
equal to `4` and the variant bits equal to `10` (binary). -/
theorem C6_uuid_new_is_v4 (u : List Nat) (h16 : u.length = 16) (hb : ∀ b ∈ u, b < 256) :
    uuid.isUuidV4 (uuid.New u) = true := by
  obtain ⟨b0, u0, rfl, g15⟩ := uuid.exists_cons_of_length_succ u 15 h16
  obtain ⟨b1, u1, rfl, g14⟩ := uuid.exists_cons_of_length_succ u0 14 g15
  obtain ⟨b2, u2, rfl, g13⟩ := uuid.exists_cons_of_length_succ u1 13 g14
  obtain ⟨b3, u3, rfl, g12⟩ := uuid.exists_cons_of_length_succ u2 12 g13
  obtain ⟨b4, u4, rfl, g11⟩ := uuid.exists_cons_of_length_succ u3 11 g12
  obtain ⟨b5, u5, rfl, g10⟩ := uuid.exists_cons_of_length_succ u4 10 g11
  obtain ⟨b6, u6, rfl, g9⟩ := uuid.exists_cons_of_length_succ u5 9 g10
  obtain ⟨b7, u7, rfl, g8⟩ := uuid.exists_cons_of_length_succ u6 8 g9
  obtain ⟨b8, u8, rfl, g7⟩ := uuid.exists_cons_of_length_succ u7 7 g8
  obtain ⟨b9, u9, rfl, g6⟩ := uuid.exists_cons_of_length_succ u8 6 g7
  obtain ⟨b10, u10, rfl, g5⟩ := uuid.exists_cons_of_length_succ u9 5 g6
  obtain ⟨b11, u11, rfl, g4⟩ := uuid.exists_cons_of_length_succ u10 4 g5
  obtain ⟨b12, u12, rfl, g3⟩ := uuid.exists_cons_of_length_succ u11 3 g4
  obtain ⟨b13, u13, rfl, g2⟩ := uuid.exists_cons_of_length_succ u12 2 g3
  obtain ⟨b14, u14, rfl, g1⟩ := uuid.exists_cons_of_length_succ u13 1 g2
  obtain ⟨b15, u15, rfl, g0⟩ := uuid.exists_cons_of_length_succ u14 0 g1
  obtain rfl : u15 = [] := List.length_eq_zero.mp g0
  have h6 : b6 < 256 := hb b6 (by simp)
  have h8 : b8 < 256 := hb b8 (by simp)
  simp only [uuid.New, uuid.bytesHex, uuid.isUuidV4, List.set, List.getD, List.take, List.drop,
    List.flatMap, uuid.byteHex, List.getElem?_cons_zero, List.getElem?_cons_succ,
    Option.getD_some, List.flatten, List.map, List.cons_append, List.nil_append, List.all]
  simp [uuid.isHexChar_hexDigit_div, uuid.isHexChar_hexDigit_mod,
    uuid.version_char b6 h6, uuid.variant_char b8 h8]

theorem C6_uuid_new_is_v4_witness :
    uuid.isUuidV4 (uuid.New (List.replicate 16 0)) = true :=
  C6_uuid_new_is_v4 (List.replicate 16 0) (by decide) (by decide)

namespace idfactor

/-! Field positions and headers of the plain (at-risk) identity record, from
`src/src/xor/lib/idfactor/idfactor.go` (the `atrisk` package in
`src/unnamed/part_000` declares the identical positions and headers). -/

def RecordIDField : Nat := 0
def FirstNameField : Nat := 1
def LastNameField : Nat := 2
def MiddleInitialField : Nat := 3
def SuffixField : Nat := 4
def DobField : Nat := 5
def SsnField : Nat := 6
def AddressLine1Field : Nat := 7
def AddressLine2Field : Nat := 8
def CityField : Nat := 9
def StateField : Nat := 10
def ZipField : Nat := 11
def PhoneField : Nat := 12
def EmailField : Nat := 13
def RecordLength : Nat := 14

def nameHeader : List String :=
  ["name_id", "first_name", "last_name", "middle_initial", "suffix", "dob"]
def ssnHeader : List String := ["ssn_id", "ssn"]
def addressHeader : List String :=
  ["address_id", "address_line_1", "address_line_2", "city", "state", "zip", "zip4"]
def phoneHeader : List String := ["phone_id", "phone"]
def emailHeader : List String := ["email_id", "email"]
def mapHeader : List String :=
  ["record_id", "name_id", "ssn_id", "address_id", "phone_id", "email_id"]

/-- `any` from `idfactor.go`: true if and only if a nonempty string is
supplied (`AllEmpty`/`None` in the other generations are its negation). -/
def any (strs : List String) : Bool :=
  strs.any fun s => s ≠ ""

/-- `none` from `idfactor.go`: true if and only if no nonempty strings are
supplied. -/
def none (strs : List String) : Bool :=
  !any strs

/-- Result of an identity element getter.  `fatal` models the `log.Fatal`
process abort raised by `checkLength` for a record of the wrong length,
`suppressed` models the `nil` return for an all-empty element, and
`fragment` carries the returned element row. -/
inductive ExtractResult where
  | fatal : ExtractResult
  | suppressed : ExtractResult
  | fragment : List String → ExtractResult
deriving DecidableEq

/-- `ToNameDob` from `idfactor.go` lines 67-73. -/
def ToNameDob (rec : List String) (id : String) : ExtractResult :=
  if rec.length ≠ RecordLength then .fatal
  else if none [rec.getD FirstNameField "", rec.getD LastNameField "",
      rec.getD MiddleInitialField "", rec.getD SuffixField "", rec.getD DobField ""] then
    .suppressed
  else
    .fragment [id, rec.getD FirstNameField "", rec.getD LastNameField "",
      rec.getD MiddleInitialField "", rec.getD SuffixField "", rec.getD DobField ""]

/-- `ToSsn` from `idfactor.go` lines 77-83. -/
def ToSsn (rec : List String) (id : String) : ExtractResult :=
  if rec.length ≠ RecordLength then .fatal
  else if none [rec.getD SsnField ""] then .suppressed
  else .fragment [id, rec.getD SsnField ""]

/-- `ToAddress` from `idfactor.go` lines 87-93: note the appended empty
`zip4` cell. -/
def ToAddress (rec : List String) (id : String) : ExtractResult :=
  if rec.length ≠ RecordLength then .fatal
  else if none [rec.getD AddressLine1Field "", rec.getD AddressLine2Field "",
      rec.getD CityField "", rec.getD StateField "", rec.getD ZipField ""] then
    .suppressed
  else
    .fragment [id, rec.getD AddressLine1Field "", rec.getD AddressLine2Field "",
      rec.getD CityField "", rec.getD StateField "", rec.getD ZipField "", ""]

/-- `ToPhone` from `idfactor.go` lines 97-103. -/
def ToPhone (rec : List String) (id : String) : ExtractResult :=
  if rec.length ≠ RecordLength then .fatal
  else if none [rec.getD PhoneField ""] then .suppressed
  else .fragment [id, rec.getD PhoneField ""]

/-- `ToEmail` from `idfactor.go` lines 107-113. -/
def ToEmail (rec : List String) (id : String) : ExtractResult :=
  if rec.length ≠ RecordLength then .fatal
  else if none [rec.getD EmailField ""] then .suppressed
  else .fragment [id, rec.getD EmailField ""]

end idfactor

namespace atrisk

/-! The `atrisk` package (`src/unnamed/part_000`) re-declares the same field
positions, headers and base getters as package `idfactor`; only the two
composite getters and their headers are new. -/

def nameAddressHeader : List String :=
  ["name_address_id", "first_name", "last_name", "middle_initial", "suffix",
   "address_line_1", "address_line_2", "city", "state", "zip", "zip4"]
def namePhoneHeader : List String :=
  ["name_phone_id", "first_name", "last_name", "middle_initial", "suffix", "phone"]

/-- `ToNameAddress` from `src/unnamed/part_000` lines 110-127.  Unlike
`idfactor.ToAddress` and `compromised.ToNameAddress` it does not append an
empty `zip4` cell, so its rows have one cell fewer than `nameAddressHeader`. -/
def ToNameAddress (rec : List String) (id : String) : idfactor.ExtractResult :=
  if rec.length ≠ idfactor.RecordLength then .fatal
  else if idfactor.none [rec.getD idfactor.FirstNameField "", rec.getD idfactor.LastNameField "",
      rec.getD idfactor.MiddleInitialField "", rec.getD idfactor.SuffixField "",
      rec.getD idfactor.AddressLine1Field "", rec.getD idfactor.AddressLine2Field "",
      rec.getD idfactor.CityField "", rec.getD idfactor.StateField "",
      rec.getD idfactor.ZipField ""] then
    .suppressed
  else
    .fragment (id :: [rec.getD idfactor.FirstNameField "", rec.getD idfactor.LastNameField "",
      rec.getD idfactor.MiddleInitialField "", rec.getD idfactor.SuffixField "",
      rec.getD idfactor.AddressLine1Field "", rec.getD idfactor.AddressLine2Field "",
      rec.getD idfactor.CityField "", rec.getD idfactor.StateField "",
      rec.getD idfactor.ZipField ""])

/-- `ToNamePhone` from `src/unnamed/part_000` lines 131-144. -/
def ToNamePhone (rec : List String) (id : String) : idfactor.ExtractResult :=
  if rec.length ≠ idfactor.RecordLength then .fatal
  else if idfactor.none [rec.getD idfactor.FirstNameField "", rec.getD idfactor.LastNameField "",
      rec.getD idfactor.MiddleInitialField "", rec.getD idfactor.SuffixField "",
      rec.getD idfactor.PhoneField ""] then
    .suppressed
  else
    .fragment (id :: [rec.getD idfactor.FirstNameField "", rec.getD idfactor.LastNameField "",
      rec.getD idfactor.MiddleInitialField "", rec.getD idfactor.SuffixField "",
      rec.getD idfactor.PhoneField ""])

end atrisk

namespace compromised

/-! Field positions, headers and getters of the compromised identity record,
from `src/src/xor/lib/idfactor/compromised/compromised.go`.  The breach
identifier sits between the record id and the name fields, so every position
after it shifts by one and `RecordLength` is 15. -/

def RecordIDField : Nat := 0
def BreachIDField : Nat := 1
def FirstNameField : Nat := 2
def LastNameField : Nat := 3
def MiddleInitialField : Nat := 4
def SuffixField : Nat := 5
def DobField : Nat := 6
def SsnField : Nat := 7
def AddressLine1Field : Nat := 8
def AddressLine2Field : Nat := 9
def CityField : Nat := 10
def StateField : Nat := 11
def ZipField : Nat := 12
def PhoneField : Nat := 13
def EmailField : Nat := 14
def RecordLength : Nat := 15

def nameHeader : List String :=
  ["breach_id", "name_id", "first_name", "last_name", "middle_initial", "suffix", "dob"]
def ssnHeader : List String := ["breach_id", "ssn_id", "ssn"]
def addressHeader : List String :=
  ["breach_id", "address_id", "address_line_1", "address_line_2", "city", "state", "zip", "zip4"]
def phoneHeader : List String := ["breach_id", "phone_id", "phone"]
def emailHeader : List String := ["breach_id", "email_id", "email"]
def nameAddressHeader : List String :=
  ["breach_id", "name_address_id", "first_name", "last_name", "middle_initial", "suffix",
   "address_line_1", "address_line_2", "city", "state", "zip", "zip4"]
def namePhoneHeader : List String :=
  ["breach_id", "name_phone_id", "first_name", "last_name", "middle_initial", "suffix", "phone"]

/-- `ToNameDob` from `compromised.go` lines 63-76. -/
def ToNameDob (rec : List String) (id : String) : idfactor.ExtractResult :=
  if rec.length ≠ RecordLength then .fatal
  else if idfactor.none [rec.getD FirstNameField "", rec.getD LastNameField "",
      rec.getD MiddleInitialField "", rec.getD SuffixField "", rec.getD DobField ""] then
    .suppressed
  else
    .fragment (rec.getD BreachIDField "" :: id ::
      [rec.getD FirstNameField "", rec.getD LastNameField "",
       rec.getD MiddleInitialField "", rec.getD SuffixField "", rec.getD DobField ""])

/-- `ToSsn` from `compromised.go` lines 80-86. -/
def ToSsn (rec : List String) (id : String) : idfactor.ExtractResult :=
  if rec.length ≠ RecordLength then .fatal
  else if idfactor.none [rec.getD SsnField ""] then .suppressed
  else .fragment [rec.getD BreachIDField "", id, rec.getD SsnField ""]

/-- `ToAddress` from `compromised.go` lines 90-105: appends an empty `zip4`
cell after the five address source fields. -/
def ToAddress (rec : List String) (id : String) : idfactor.ExtractResult :=
  if rec.length ≠ RecordLength then .fatal
  else if idfactor.none [rec.getD AddressLine1Field "", rec.getD AddressLine2Field "",
      rec.getD CityField "", rec.getD StateField "", rec.getD ZipField ""] then
    .suppressed
  else
    .fragment (rec.getD BreachIDField "" :: id ::
      ([rec.getD AddressLine1Field "", rec.getD AddressLine2Field "",
        rec.getD CityField "", rec.getD StateField "", rec.getD ZipField ""] ++ [""]))

/-- `ToPhone` from `compromised.go` lines 109-115. -/
def ToPhone (rec : List String) (id : String) : idfactor.ExtractResult :=
  if rec.length ≠ RecordLength then .fatal
  else if idfactor.none [rec.getD PhoneField ""] then .suppressed
  else .fragment [rec.getD BreachIDField "", id, rec.getD PhoneField ""]

/-- `ToEmail` from `compromised.go` lines 119-125. -/
def ToEmail (rec : List String) (id : String) : idfactor.ExtractResult :=
  if rec.length ≠ RecordLength then .fatal
  else if idfactor.none [rec.getD EmailField ""] then .suppressed
  else .fragment [rec.getD BreachIDField "", id, rec.getD EmailField ""]

/-- `ToNameAddress` from `compromised.go` lines 129-148: appends an empty
`zip4` cell. -/
def ToNameAddress (rec : List String) (id : String) : idfactor.ExtractResult :=
  if rec.length ≠ RecordLength then .fatal
  else if idfactor.none [rec.getD FirstNameField "", rec.getD LastNameField "",
      rec.getD MiddleInitialField "", rec.getD SuffixField "",
      rec.getD AddressLine1Field "", rec.getD AddressLine2Field "",
      rec.getD CityField "", rec.getD StateField "", rec.getD ZipField ""] then
    .suppressed
  else
    .fragment (rec.getD BreachIDField "" :: id ::
      ([rec.getD FirstNameField "", rec.getD LastNameField "",
        rec.getD MiddleInitialField "", rec.getD SuffixField "",
        rec.getD AddressLine1Field "", rec.getD AddressLine2Field "",
        rec.getD CityField "", rec.getD StateField "", rec.getD ZipField ""] ++ [""]))

/-- `ToNamePhone` from `compromised.go` lines 152-165. -/
def ToNamePhone (rec : List String) (id : String) : idfactor.ExtractResult :=
  if rec.length ≠ RecordLength then .fatal
  else if idfactor.none [rec.getD FirstNameField "", rec.getD LastNameField "",
      rec.getD MiddleInitialField "", rec.getD SuffixField "", rec.getD PhoneField ""] then
    .suppressed
  else
    .fragment (rec.getD BreachIDField "" :: id ::
      [rec.getD FirstNameField "", rec.getD LastNameField "",
       rec.getD MiddleInitialField "", rec.getD SuffixField "", rec.getD PhoneField ""])

end compromised

namespace idfactor

/-- Go map insertion `m[k] = v` on the association-list model: every existing
entry for `k` is removed and the new binding appended, so the map holds at
most one entry per key, exactly like a Go map. -/
def mapInsert (m : List (String × String)) (k v : String) : List (String × String) :=
  (m.filter fun p => p.1 ≠ k) ++ [(k, v)]

/-- Go map read `m[k]` with its zero-value default: the bound value if `k`
is present, the empty string otherwise. -/
def mapGet (m : List (String × String)) (k : String) : String :=
  (m.lookup k).getD ""

/-!  Serialization and buffering.  `writeToWriter` hands its rows to an
`encoding/csv` writer (`Comma = '|'`, `UseCRLF = false` off Windows), which
itself writes through the 4096-byte `bufio.Writer` wrapped around the sink.
`log.Fatal` kills the process before the final `Flush`, but bufio flushes on
its own whenever a write no longer fits in the buffer, so what the sink has
received at an abort is exactly the flushed byte prefix of the serialized
stream.  The following definitions model that byte accounting. -/

/-- `unicode.IsSpace`: the White_Space code points tested by
`csv.Writer.fieldNeedsQuotes` on the field's first rune. -/
def isGoSpace (c : Char) : Bool :=
  [0x09, 0x0A, 0x0B, 0x0C, 0x0D, 0x20, 0x85, 0xA0, 0x1680,
   0x2000, 0x2001, 0x2002, 0x2003, 0x2004, 0x2005, 0x2006, 0x2007, 0x2008, 0x2009, 0x200A,
   0x2028, 0x2029, 0x202F, 0x205F, 0x3000].any fun n => c.toNat = n

/-- `csv.Writer.fieldNeedsQuotes` for `Comma = '|'`: empty fields need no
quotes, the literal `\.` always does, as does any field containing the
delimiter, a quote or a line break, or starting with a space rune. -/
def fieldNeedsQuotes (field : String) : Bool :=
  if field = "" then false
  else if field = "\\." then true
  else if field.data.any (fun c => c = '\n' || c = '\r' || c = '"' || c = '|') then true
  else match field.data with
    | [] => false
    | c :: _ => isGoSpace c

/-- The characters `csv.Writer` emits for a quoted field with
`UseCRLF = false`: surrounding quotes, inner quotes doubled, CR and LF kept. -/
def quotedFieldChars (field : String) : List Char :=
  '"' :: (field.data.flatMap fun c => if c = '"' then ['"', '"'] else [c]) ++ ['"']

/-- The characters `csv.Writer` emits for one field. -/
def fieldChars (field : String) : List Char :=
  if fieldNeedsQuotes field then quotedFieldChars field else field.data

/-- The separate writes `csv.Writer.Write` performs for one record: the first
field, then delimiter and field for each remaining one, then the newline
(`UseCRLF = false`).  Quoted fields are modelled as a single write, which
matches bufio's accounting whenever a field is shorter than the buffer. -/
def rowPieces : List String → List (List Char)
  | [] => [['\n']]
  | f :: rest => fieldChars f :: (rest.flatMap fun g => [['|'], fieldChars g]) ++ [['\n']]

/-- The full character stream one csv record contributes. -/
def csvRowChars (row : List String) : List Char :=
  (rowPieces row).flatten

/-- Byte length of a character stream (UTF-8, as Go counts it). -/
def charsBytes (cs : List Char) : Nat :=
  (cs.map Char.utf8Size).sum

/-- One `bufio.Writer` write of `len` bytes on the state
`(buffered, flushed)` with the default 4096-byte buffer: a write that fits is
buffered; otherwise the buffer is filled and flushed, and a remainder larger
than the whole buffer is written straight through to the sink (bufio's
big-write path on an empty buffer). -/
def bufioWrite (st : Nat × Nat) (len : Nat) : Nat × Nat :=
  if len ≤ 4096 - st.1 then (st.1 + len, st.2)
  else if st.1 = 0 then (0, st.2 + len)
  else if len - (4096 - st.1) ≤ 4096 then (len - (4096 - st.1), st.2 + 4096)
  else (0, st.2 + 4096 + (len - (4096 - st.1)))

/-- One csv write call through bufio. -/
def writeCall (st : Nat × Nat) (piece : List Char) : Nat × Nat :=
  bufioWrite st (charsBytes piece)

/-- `csv.Writer.Write` of one record on the bufio state. -/
def csvWriteRow (st : Nat × Nat) (row : List String) : Nat × Nat :=
  (rowPieces row).foldl writeCall st

/-- The loop of `writeToWriter` (`idfactor.go` lines 277-289): the shuffled
indices are processed in order; at the `k`-th iteration `uuid.New` is called
(consuming `ids k`) before the element is extracted, the record id is read
from field 0, non-nil elements are appended to the output rows, and the
record-id to element-id association is recorded.  The first component is
true when `checkLength` inside the getter raised its `log.Fatal` abort; the
remaining components are the rows handed to the csv writer and the map
built up to that point. -/
def writeLoop (recs : List (List String)) (get : List String → String → ExtractResult)
    (ids : Nat → String) :
    List Nat → Nat → List (List String) → List (String × String) →
    Bool × List (List String) × List (String × String)
  | [], _, rows, m => (false, rows, m)
  | i :: rest, k, rows, m =>
    let elemid := ids k
    let id := (recs.getD i []).getD RecordIDField ""
    match get (recs.getD i []) elemid with
    | .fatal => (true, rows, m)
    | .suppressed => writeLoop recs get ids rest (k + 1) rows m
    | .fragment elem => writeLoop recs get ids rest (k + 1) (rows ++ [elem]) (mapInsert m id elemid)

/-- Outcome of one `writeToWriter` call.  `rows` are the element rows handed
to the csv writer before the call ended; `sink` is the byte stream the
underlying `io.Writer` has received at that moment: everything (after the
final `Flush`) on the success path, and on the abort paths the prefix bufio
had auto-flushed before `log.Fatal` killed the process — empty while the
output still fits the 4096-byte buffer, but containing the leading bytes
(header first) once it does not.  On the abort paths `idmap` is empty
because the process dies before returning a map. -/
structure WriteResult where
  fatal : Bool
  rows : List (List String)
  sink : List Char
  idmap : List (String × String)
deriving DecidableEq

/-- `writeToWriter` from `idfactor.go` lines 262-295 (`WriteToWriter` of the
at-risk and compromised generations is the identical routine): writes the
header, shuffles the row order, extracts and writes each non-suppressed
element with a fresh surrogate id, flushes, and returns the record-id to
element-id map.  `draws` and `ids` are the streams consumed by
`shuffle.Shuffle` and `uuid.New`.  Note the header is written before
`Shuffle` runs, so even the empty-table abort happens with the header
already buffered. -/
def writeToWriter (draws : Nat → Nat) (ids : Nat → String) (recs : List (List String))
    (header : List String) (get : List String → String → ExtractResult) : WriteResult :=
  let headerChars := csvRowChars header
  match shuffle.Shuffle draws recs.length with
  | Option.none =>
    ⟨true, [], headerChars.take (csvWriteRow (0, 0) header).2, []⟩
  | Option.some perm =>
    match writeLoop recs get ids perm 0 [] [] with
    | (true, rows, _) =>
      ⟨true, rows,
        (headerChars ++ rows.flatMap csvRowChars).take
          (rows.foldl csvWriteRow (csvWriteRow (0, 0) header)).2, []⟩
    | (false, rows, m) =>
      ⟨false, rows, headerChars ++ rows.flatMap csvRowChars, m⟩

/-- `WriteMapToWriter` from `idfactor.go` lines 216-238: writes the map
header, then one row per input record in input order, each row holding the
record id followed by that record's surrogate id in each per-kind map (Go's
`m[id]` zero value, the empty string, when absent). -/
def WriteMapToWriter (recs : List (List String))
    (nameid ssnid addressid phoneid emailid : List (String × String)) : List (List String) :=
  mapHeader :: recs.map fun rec =>
    let id := rec.getD RecordIDField ""
    [id, mapGet nameid id, mapGet ssnid id, mapGet addressid id,
     mapGet phoneid id, mapGet emailid id]

end idfactor

namespace idfactor

theorem none_iff_1 (a : String) : none [a] = true ↔ a = "" := by
  simp [none, any]

theorem none_iff_5 (a b c d e : String) :
    none [a, b, c, d, e] = true ↔ (a = "" ∧ b = "" ∧ c = "" ∧ d = "" ∧ e = "") := by
  simp [none, any]

theorem none_iff_9 (a b c d e f g h i : String) :
    none [a, b, c, d, e, f, g, h, i] = true ↔
      (a = "" ∧ b = "" ∧ c = "" ∧ d = "" ∧ e = "" ∧ f = "" ∧ g = "" ∧ h = "" ∧ i = "") := by
  simp [none, any]

theorem ite_suppressed_iff (c : Bool) (e : List String) :
    ((if c = true then ExtractResult.suppressed else ExtractResult.fragment e)
      = ExtractResult.suppressed ↔ c = true) := by
  cases c <;> simp

theorem ite_fragment (c : Bool) (e : List String) (h : ¬c = true) :
    (if c = true then ExtractResult.suppressed else ExtractResult.fragment e)
      = ExtractResult.fragment e :=
  if_neg h

end idfactor

/-- C3: for every record of the schema's declared length, every fragment
extractor (`ToNameDob`, `ToSsn`, `ToAddress`, `ToPhone`, `ToEmail`, and the
name-address / name-phone variants, in both the plain and the compromised
generations) returns suppressed if and only if every one of that fragment
kind's source field values in the record is the empty string; otherwise it
returns a fragment pairing the given surrogate id (preceded by the breach id
for the compromised variant) with those source field values in the spec's
declared order. -/
theorem C3_extractor_suppression :
    (∀ rec id, rec.length = idfactor.RecordLength →
      ((idfactor.ToNameDob rec id = .suppressed ↔
          (rec.getD idfactor.FirstNameField "" = "" ∧ rec.getD idfactor.LastNameField "" = "" ∧
           rec.getD idfactor.MiddleInitialField "" = "" ∧ rec.getD idfactor.SuffixField "" = "" ∧
           rec.getD idfactor.DobField "" = "")) ∧
        (¬(rec.getD idfactor.FirstNameField "" = "" ∧ rec.getD idfactor.LastNameField "" = "" ∧
           rec.getD idfactor.MiddleInitialField "" = "" ∧ rec.getD idfactor.SuffixField "" = "" ∧
           rec.getD idfactor.DobField "" = "") →
          idfactor.ToNameDob rec id = .fragment [id, rec.getD idfactor.FirstNameField "",
            rec.getD idfactor.LastNameField "", rec.getD idfactor.MiddleInitialField "",
            rec.getD idfactor.SuffixField "", rec.getD idfactor.DobField ""])) ∧
      ((idfactor.ToSsn rec id = .suppressed ↔ rec.getD idfactor.SsnField "" = "") ∧
        (¬rec.getD idfactor.SsnField "" = "" →
          idfactor.ToSsn rec id = .fragment [id, rec.getD idfactor.SsnField ""])) ∧
      ((idfactor.ToAddress rec id = .suppressed ↔
          (rec.getD idfactor.AddressLine1Field "" = "" ∧ rec.getD idfactor.AddressLine2Field "" = "" ∧
           rec.getD idfactor.CityField "" = "" ∧ rec.getD idfactor.StateField "" = "" ∧
           rec.getD idfactor.ZipField "" = "")) ∧
        (¬(rec.getD idfactor.AddressLine1Field "" = "" ∧ rec.getD idfactor.AddressLine2Field "" = "" ∧
           rec.getD idfactor.CityField "" = "" ∧ rec.getD idfactor.StateField "" = "" ∧
           rec.getD idfactor.ZipField "" = "") →
          idfactor.ToAddress rec id = .fragment [id, rec.getD idfactor.AddressLine1Field "",
            rec.getD idfactor.AddressLine2Field "", rec.getD idfactor.CityField "",
            rec.getD idfactor.StateField "", rec.getD idfactor.ZipField "", ""])) ∧
      ((idfactor.ToPhone rec id = .suppressed ↔ rec.getD idfactor.PhoneField "" = "") ∧
        (¬rec.getD idfactor.PhoneField "" = "" →
          idfactor.ToPhone rec id = .fragment [id, rec.getD idfactor.PhoneField ""])) ∧
      ((idfactor.ToEmail rec id = .suppressed ↔ rec.getD idfactor.EmailField "" = "") ∧
        (¬rec.getD idfactor.EmailField "" = "" →
          idfactor.ToEmail rec id = .fragment [id, rec.getD idfactor.EmailField ""])) ∧
      ((atrisk.ToNameAddress rec id = .suppressed ↔
          (rec.getD idfactor.FirstNameField "" = "" ∧ rec.getD idfactor.LastNameField "" = "" ∧
           rec.getD idfactor.MiddleInitialField "" = "" ∧ rec.getD idfactor.SuffixField "" = "" ∧
           rec.getD idfactor.AddressLine1Field "" = "" ∧ rec.getD idfactor.AddressLine2Field "" = "" ∧
           rec.getD idfactor.CityField "" = "" ∧ rec.getD idfactor.StateField "" = "" ∧
           rec.getD idfactor.ZipField "" = "")) ∧
        (¬(rec.getD idfactor.FirstNameField "" = "" ∧ rec.getD idfactor.LastNameField "" = "" ∧
           rec.getD idfactor.MiddleInitialField "" = "" ∧ rec.getD idfactor.SuffixField "" = "" ∧
           rec.getD idfactor.AddressLine1Field "" = "" ∧ rec.getD idfactor.AddressLine2Field "" = "" ∧
           rec.getD idfactor.CityField "" = "" ∧ rec.getD idfactor.StateField "" = "" ∧
           rec.getD idfactor.ZipField "" = "") →
          atrisk.ToNameAddress rec id = .fragment [id, rec.getD idfactor.FirstNameField "",
            rec.getD idfactor.LastNameField "", rec.getD idfactor.MiddleInitialField "",
            rec.getD idfactor.SuffixField "", rec.getD idfactor.AddressLine1Field "",
            rec.getD idfactor.AddressLine2Field "", rec.getD idfactor.CityField "",
            rec.getD idfactor.StateField "", rec.getD idfactor.ZipField ""])) ∧
      ((atrisk.ToNamePhone rec id = .suppressed ↔
          (rec.getD idfactor.FirstNameField "" = "" ∧ rec.getD idfactor.LastNameField "" = "" ∧
           rec.getD idfactor.MiddleInitialField "" = "" ∧ rec.getD idfactor.SuffixField "" = "" ∧
           rec.getD idfactor.PhoneField "" = "")) ∧
        (¬(rec.getD idfactor.FirstNameField "" = "" ∧ rec.getD idfactor.LastNameField "" = "" ∧
           rec.getD idfactor.MiddleInitialField "" = "" ∧ rec.getD idfactor.SuffixField "" = "" ∧
           rec.getD idfactor.PhoneField "" = "") →
          atrisk.ToNamePhone rec id = .fragment [id, rec.getD idfactor.FirstNameField "",
            rec.getD idfactor.LastNameField "", rec.getD idfactor.MiddleInitialField "",
            rec.getD idfactor.SuffixField "", rec.getD idfactor.PhoneField ""]))) ∧
    (∀ rec id, rec.length = compromised.RecordLength →
      ((compromised.ToNameDob rec id = .suppressed ↔
          (rec.getD compromised.FirstNameField "" = "" ∧ rec.getD compromised.LastNameField "" = "" ∧
           rec.getD compromised.MiddleInitialField "" = "" ∧ rec.getD compromised.SuffixField "" = "" ∧
           rec.getD compromised.DobField "" = "")) ∧
        (¬(rec.getD compromised.FirstNameField "" = "" ∧ rec.getD compromised.LastNameField "" = "" ∧
           rec.getD compromised.MiddleInitialField "" = "" ∧ rec.getD compromised.SuffixField "" = "" ∧
           rec.getD compromised.DobField "" = "") →
          compromised.ToNameDob rec id = .fragment [rec.getD compromised.BreachIDField "", id,
            rec.getD compromised.FirstNameField "", rec.getD compromised.LastNameField "",
            rec.getD compromised.MiddleInitialField "", rec.getD compromised.SuffixField "",
            rec.getD compromised.DobField ""])) ∧
      ((compromised.ToSsn rec id = .suppressed ↔ rec.getD compromised.SsnField "" = "") ∧
        (¬rec.getD compromised.SsnField "" = "" →
          compromised.ToSsn rec id = .fragment [rec.getD compromised.BreachIDField "", id,
            rec.getD compromised.SsnField ""])) ∧
      ((compromised.ToAddress rec id = .suppressed ↔
          (rec.getD compromised.AddressLine1Field "" = "" ∧ rec.getD compromised.AddressLine2Field "" = "" ∧
           rec.getD compromised.CityField "" = "" ∧ rec.getD compromised.StateField "" = "" ∧
           rec.getD compromised.ZipField "" = "")) ∧
        (¬(rec.getD compromised.AddressLine1Field "" = "" ∧ rec.getD compromised.AddressLine2Field "" = "" ∧
           rec.getD compromised.CityField "" = "" ∧ rec.getD compromised.StateField "" = "" ∧
           rec.getD compromised.ZipField "" = "") →
          compromised.ToAddress rec id = .fragment [rec.getD compromised.BreachIDField "", id,
            rec.getD compromised.AddressLine1Field "", rec.getD compromised.AddressLine2Field "",
            rec.getD compromised.CityField "", rec.getD compromised.StateField "",
            rec.getD compromised.ZipField "", ""])) ∧
      ((compromised.ToPhone rec id = .suppressed ↔ rec.getD compromised.PhoneField "" = "") ∧
        (¬rec.getD compromised.PhoneField "" = "" →
          compromised.ToPhone rec id = .fragment [rec.getD compromised.BreachIDField "", id,
            rec.getD compromised.PhoneField ""])) ∧
      ((compromised.ToEmail rec id = .suppressed ↔ rec.getD compromised.EmailField "" = "") ∧
        (¬rec.getD compromised.EmailField "" = "" →
          compromised.ToEmail rec id = .fragment [rec.getD compromised.BreachIDField "", id,
            rec.getD compromised.EmailField ""])) ∧
      ((compromised.ToNameAddress rec id = .suppressed ↔
          (rec.getD compromised.FirstNameField "" = "" ∧ rec.getD compromised.LastNameField "" = "" ∧
           rec.getD compromised.MiddleInitialField "" = "" ∧ rec.getD compromised.SuffixField "" = "" ∧
           rec.getD compromised.AddressLine1Field "" = "" ∧ rec.getD compromised.AddressLine2Field "" = "" ∧
           rec.getD compromised.CityField "" = "" ∧ rec.getD compromised.StateField "" = "" ∧
           rec.getD compromised.ZipField "" = "")) ∧
        (¬(rec.getD compromised.FirstNameField "" = "" ∧ rec.getD compromised.LastNameField "" = "" ∧
           rec.getD compromised.MiddleInitialField "" = "" ∧ rec.getD compromised.SuffixField "" = "" ∧
           rec.getD compromised.AddressLine1Field "" = "" ∧ rec.getD compromised.AddressLine2Field "" = "" ∧
           rec.getD compromised.CityField "" = "" ∧ rec.getD compromised.StateField "" = "" ∧
           rec.getD compromised.ZipField "" = "") →
          compromised.ToNameAddress rec id = .fragment [rec.getD compromised.BreachIDField "", id,
            rec.getD compromised.FirstNameField "", rec.getD compromised.LastNameField "",
            rec.getD compromised.MiddleInitialField "", rec.getD compromised.SuffixField "",
            rec.getD compromised.AddressLine1Field "", rec.getD compromised.AddressLine2Field "",
            rec.getD compromised.CityField "", rec.getD compromised.StateField "",
            rec.getD compromised.ZipField "", ""])) ∧
      ((compromised.ToNamePhone rec id = .suppressed ↔
          (rec.getD compromised.FirstNameField "" = "" ∧ rec.getD compromised.LastNameField "" = "" ∧
           rec.getD compromised.MiddleInitialField "" = "" ∧ rec.getD compromised.SuffixField "" = "" ∧
           rec.getD compromised.PhoneField "" = "")) ∧
        (¬(rec.getD compromised.FirstNameField "" = "" ∧ rec.getD compromised.LastNameField "" = "" ∧
           rec.getD compromised.MiddleInitialField "" = "" ∧ rec.getD compromised.SuffixField "" = "" ∧
           rec.getD compromised.PhoneField "" = "") →
          compromised.ToNamePhone rec id = .fragment [rec.getD compromised.BreachIDField "", id,
            rec.getD compromised.FirstNameField "", rec.getD compromised.LastNameField "",
            rec.getD compromised.MiddleInitialField "", rec.getD compromised.SuffixField "",
            rec.getD compromised.PhoneField ""]))) := by
  constructor
  · intro rec id hlen
    have hne : ¬(rec.length ≠ idfactor.RecordLength) := by simp [hlen]
    refine ⟨⟨?_, ?_⟩, ⟨?_, ?_⟩, ⟨?_, ?_⟩, ⟨?_, ?_⟩, ⟨?_, ?_⟩, ⟨?_, ?_⟩, ⟨?_, ?_⟩⟩
    · rw [show idfactor.ToNameDob rec id = _ from by
        simp only [idfactor.ToNameDob]; rw [if_neg hne],
        idfactor.ite_suppressed_iff, idfactor.none_iff_5]
    · intro h2
      rw [show idfactor.ToNameDob rec id = _ from by
        simp only [idfactor.ToNameDob]; rw [if_neg hne]]
      exact idfactor.ite_fragment _ _ fun hc => h2 ((idfactor.none_iff_5 _ _ _ _ _).mp hc)
    · rw [show idfactor.ToSsn rec id = _ from by
        simp only [idfactor.ToSsn]; rw [if_neg hne],
        idfactor.ite_suppressed_iff, idfactor.none_iff_1]
    · intro h2
      rw [show idfactor.ToSsn rec id = _ from by
        simp only [idfactor.ToSsn]; rw [if_neg hne]]
      exact idfactor.ite_fragment _ _ fun hc => h2 ((idfactor.none_iff_1 _).mp hc)
    · rw [show idfactor.ToAddress rec id = _ from by
        simp only [idfactor.ToAddress]; rw [if_neg hne],
        idfactor.ite_suppressed_iff, idfactor.none_iff_5]
    · intro h2
      rw [show idfactor.ToAddress rec id = _ from by
        simp only [idfactor.ToAddress]; rw [if_neg hne]]
      exact idfactor.ite_fragment _ _ fun hc => h2 ((idfactor.none_iff_5 _ _ _ _ _).mp hc)
    · rw [show idfactor.ToPhone rec id = _ from by
        simp only [idfactor.ToPhone]; rw [if_neg hne],
        idfactor.ite_suppressed_iff, idfactor.none_iff_1]
    · intro h2
      rw [show idfactor.ToPhone rec id = _ from by
        simp only [idfactor.ToPhone]; rw [if_neg hne]]
      exact idfactor.ite_fragment _ _ fun hc => h2 ((idfactor.none_iff_1 _).mp hc)
    · rw [show idfactor.ToEmail rec id = _ from by
        simp only [idfactor.ToEmail]; rw [if_neg hne],
        idfactor.ite_suppressed_iff, idfactor.none_iff_1]
    · intro h2
      rw [show idfactor.ToEmail rec id = _ from by
        simp only [idfactor.ToEmail]; rw [if_neg hne]]
      exact idfactor.ite_fragment _ _ fun hc => h2 ((idfactor.none_iff_1 _).mp hc)
    · rw [show atrisk.ToNameAddress rec id = _ from by
        simp only [atrisk.ToNameAddress]; rw [if_neg hne],
        idfactor.ite_suppressed_iff, idfactor.none_iff_9]
    · intro h2
      rw [show atrisk.ToNameAddress rec id = _ from by
        simp only [atrisk.ToNameAddress]; rw [if_neg hne]]
      exact idfactor.ite_fragment _ _ fun hc =>
        h2 ((idfactor.none_iff_9 _ _ _ _ _ _ _ _ _).mp hc)
    · rw [show atrisk.ToNamePhone rec id = _ from by
        simp only [atrisk.ToNamePhone]; rw [if_neg hne],
        idfactor.ite_suppressed_iff, idfactor.none_iff_5]
    · intro h2
      rw [show atrisk.ToNamePhone rec id = _ from by
        simp only [atrisk.ToNamePhone]; rw [if_neg hne]]
      exact idfactor.ite_fragment _ _ fun hc => h2 ((idfactor.none_iff_5 _ _ _ _ _).mp hc)
  · intro rec id hlen
    have hne : ¬(rec.length ≠ compromised.RecordLength) := by simp [hlen]
    refine ⟨⟨?_, ?_⟩, ⟨?_, ?_⟩, ⟨?_, ?_⟩, ⟨?_, ?_⟩, ⟨?_, ?_⟩, ⟨?_, ?_⟩, ⟨?_, ?_⟩⟩
    · rw [show compromised.ToNameDob rec id = _ from by
        simp only [compromised.ToNameDob]; rw [if_neg hne],
        idfactor.ite_suppressed_iff, idfactor.none_iff_5]
    · intro h2
      rw [show compromised.ToNameDob rec id = _ from by
        simp only [compromised.ToNameDob]; rw [if_neg hne]]
      exact idfactor.ite_fragment _ _ fun hc => h2 ((idfactor.none_iff_5 _ _ _ _ _).mp hc)
    · rw [show compromised.ToSsn rec id = _ from by
        simp only [compromised.ToSsn]; rw [if_neg hne],
        idfactor.ite_suppressed_iff, idfactor.none_iff_1]
    · intro h2
      rw [show compromised.ToSsn rec id = _ from by
        simp only [compromised.ToSsn]; rw [if_neg hne]]
      exact idfactor.ite_fragment _ _ fun hc => h2 ((idfactor.none_iff_1 _).mp hc)
    · rw [show compromised.ToAddress rec id = _ from by
        simp only [compromised.ToAddress]; rw [if_neg hne],
        idfactor.ite_suppressed_iff, idfactor.none_iff_5]
    · intro h2
      rw [show compromised.ToAddress rec id = _ from by
        simp only [compromised.ToAddress]; rw [if_neg hne]]
      exact idfactor.ite_fragment _ _ fun hc => h2 ((idfactor.none_iff_5 _ _ _ _ _).mp hc)
    · rw [show compromised.ToPhone rec id = _ from by
        simp only [compromised.ToPhone]; rw [if_neg hne],
        idfactor.ite_suppressed_iff, idfactor.none_iff_1]
    · intro h2
      rw [show compromised.ToPhone rec id = _ from by
        simp only [compromised.ToPhone]; rw [if_neg hne]]
      exact idfactor.ite_fragment _ _ fun hc => h2 ((idfactor.none_iff_1 _).mp hc)
    · rw [show compromised.ToEmail rec id = _ from by
        simp only [compromised.ToEmail]; rw [if_neg hne],
        idfactor.ite_suppressed_iff, idfactor.none_iff_1]
    · intro h2
      rw [show compromised.ToEmail rec id = _ from by
        simp only [compromised.ToEmail]; rw [if_neg hne]]
      exact idfactor.ite_fragment _ _ fun hc => h2 ((idfactor.none_iff_1 _).mp hc)
    · rw [show compromised.ToNameAddress rec id = _ from by
        simp only [compromised.ToNameAddress]; rw [if_neg hne],
        idfactor.ite_suppressed_iff, idfactor.none_iff_9]
    · intro h2
      rw [show compromised.ToNameAddress rec id = _ from by
        simp only [compromised.ToNameAddress]; rw [if_neg hne]]
      exact idfactor.ite_fragment _ _ fun hc =>
        h2 ((idfactor.none_iff_9 _ _ _ _ _ _ _ _ _).mp hc)
    · rw [show compromised.ToNamePhone rec id = _ from by
        simp only [compromised.ToNamePhone]; rw [if_neg hne],
        idfactor.ite_suppressed_iff, idfactor.none_iff_5]
    · intro h2
      rw [show compromised.ToNamePhone rec id = _ from by
        simp only [compromised.ToNamePhone]; rw [if_neg hne]]
      exact idfactor.ite_fragment _ _ fun hc => h2 ((idfactor.none_iff_5 _ _ _ _ _).mp hc)

/-- A well-formed plain (at-risk) record: 14 fields, non-empty name and
address fields, empty ssn. -/
def witnessRecord : List String :=
  ["1", "Ann", "Lee", "", "", "1980-01-01", "", "1 Main", "", "Springfield",
   "IL", "62701", "555-1212", "ann@x.com"]

theorem C3_extractor_suppression_witness :
    idfactor.ToSsn witnessRecord "u" = idfactor.ExtractResult.suppressed ∧
    idfactor.ToNameDob witnessRecord "u"
      = idfactor.ExtractResult.fragment ["u", "Ann", "Lee", "", "", "1980-01-01"] := by
  have h := C3_extractor_suppression.1 witnessRecord "u" (by decide)
  exact ⟨h.2.1.1.mpr rfl, h.1.2 (by decide)⟩

/-- C9: for every record whose field count differs from the active schema's
`RecordLength`, every fragment extractor of that schema signals the
unrecoverable `log.Fatal` error and produces no fragment. -/
theorem C9_wrong_length_fatal (rec : List String) (id : String) :
    (rec.length ≠ idfactor.RecordLength →
      idfactor.ToNameDob rec id = .fatal ∧ idfactor.ToSsn rec id = .fatal ∧
      idfactor.ToAddress rec id = .fatal ∧ idfactor.ToPhone rec id = .fatal ∧
      idfactor.ToEmail rec id = .fatal ∧ atrisk.ToNameAddress rec id = .fatal ∧
      atrisk.ToNamePhone rec id = .fatal) ∧
    (rec.length ≠ compromised.RecordLength →
      compromised.ToNameDob rec id = .fatal ∧ compromised.ToSsn rec id = .fatal ∧
      compromised.ToAddress rec id = .fatal ∧ compromised.ToPhone rec id = .fatal ∧
      compromised.ToEmail rec id = .fatal ∧ compromised.ToNameAddress rec id = .fatal ∧
      compromised.ToNamePhone rec id = .fatal) := by
  constructor <;> intro h <;>
    refine ⟨?_, ?_, ?_, ?_, ?_, ?_, ?_⟩ <;>
    simp [idfactor.ToNameDob, idfactor.ToSsn, idfactor.ToAddress, idfactor.ToPhone,
      idfactor.ToEmail, atrisk.ToNameAddress, atrisk.ToNamePhone, compromised.ToNameDob,
      compromised.ToSsn, compromised.ToAddress, compromised.ToPhone, compromised.ToEmail,
      compromised.ToNameAddress, compromised.ToNamePhone, h]

theorem C9_wrong_length_fatal_witness :
    idfactor.ToNameDob ["1", "Ann"] "u" = idfactor.ExtractResult.fatal ∧
    compromised.ToSsn ["1", "Ann"] "u" = idfactor.ExtractResult.fatal :=
  ⟨((C9_wrong_length_fatal ["1", "Ann"] "u").1 (by decide)).1,
   ((C9_wrong_length_fatal ["1", "Ann"] "u").2 (by decide)).2.1⟩

/-- C5 (failing case): on a record with non-empty name and address fields the
at-risk name-address fragment writer emits a data row of 10 cells under a
header of 11 cells, because `atrisk.ToNameAddress`, unlike
`idfactor.ToAddress` and `compromised.ToNameAddress`, never appends the empty
`zip4` cell its header declares.  All the other fragment kinds do match their
headers. -/
theorem C5_atrisk_name_address_row_narrower_than_header :
    (idfactor.writeToWriter (fun _ => 0) (fun _ => "u") [witnessRecord]
        atrisk.nameAddressHeader atrisk.ToNameAddress).fatal = false ∧
    (idfactor.writeToWriter (fun _ => 0) (fun _ => "u") [witnessRecord]
        atrisk.nameAddressHeader atrisk.ToNameAddress).rows
      = [["u", "Ann", "Lee", "", "", "1 Main", "", "Springfield", "IL", "62701"]] ∧
    ((idfactor.writeToWriter (fun _ => 0) (fun _ => "u") [witnessRecord]
        atrisk.nameAddressHeader atrisk.ToNameAddress).rows.getD 0 []).length = 10 ∧
    atrisk.nameAddressHeader.length = 11 ∧
    (idfactor.writeToWriter (fun _ => 0) (fun _ => "u") [witnessRecord]
        atrisk.nameAddressHeader atrisk.ToNameAddress).sink
      = idfactor.csvRowChars atrisk.nameAddressHeader
        ++ idfactor.csvRowChars ["u", "Ann", "Lee", "", "", "1 Main", "", "Springfield", "IL", "62701"] := by
  decide

namespace idfactor

/-- The three properties of every identity element getter that the fragment
writer relies on: `checkLength` aborts exactly on records of the wrong
length, suppression depends only on the record (never on the generated id),
and a produced element carries the given id at the surrogate-id position
(`pos` is 0 for the plain getters and 1 for the compromised ones, whose rows
start with the breach id). -/
structure GetterSpec (recLen pos : Nat) (get : List String → String → ExtractResult) : Prop where
  fatal_iff : ∀ rec id, get rec id = .fatal ↔ rec.length ≠ recLen
  suppressed_indep : ∀ rec id1 id2, get rec id1 = .suppressed → get rec id2 = .suppressed
  cell : ∀ rec id e, get rec id = .fragment e → e.getD pos "" = id

theorem getterSpec_of_shape (recLen pos : Nat) (get : List String → String → ExtractResult)
    (cond : List String → Bool) (elem : List String → String → List String)
    (hshape : ∀ rec id, get rec id = if rec.length ≠ recLen then .fatal
        else if cond rec = true then .suppressed else .fragment (elem rec id))
    (hcell : ∀ rec id, (elem rec id).getD pos "" = id) :
    GetterSpec recLen pos get := by
  constructor
  · intro rec id
    rw [hshape]
    by_cases h : rec.length = recLen
    · rw [if_neg (by simp [h])]
      constructor
      · intro hx
        cases hc : cond rec <;> rw [hc] at hx <;> simp at hx
      · intro hx
        exact absurd h hx
    · rw [if_pos h]
      simp [h]
  · intro rec id1 id2 hs
    rw [hshape] at hs ⊢
    by_cases h : rec.length = recLen
    · rw [if_neg (by simp [h])] at hs ⊢
      cases hc : cond rec
      · rw [hc] at hs
        simp at hs
      · simp
    · rw [if_pos h] at hs
      simp at hs
  · intro rec id e hf
    rw [hshape] at hf
    by_cases h : rec.length = recLen
    · rw [if_neg (by simp [h])] at hf
      cases hc : cond rec
      · rw [hc] at hf
        simp at hf
        rw [← hf]
        exact hcell rec id
      · rw [hc] at hf
        simp at hf
    · rw [if_pos h] at hf
      simp at hf

theorem toNameDob_spec : GetterSpec RecordLength 0 ToNameDob :=
  getterSpec_of_shape _ _ _ _ _ (fun _ _ => rfl) (fun _ _ => rfl)

theorem toSsn_spec : GetterSpec RecordLength 0 ToSsn :=
  getterSpec_of_shape _ _ _ _ _ (fun _ _ => rfl) (fun _ _ => rfl)

theorem toAddress_spec : GetterSpec RecordLength 0 ToAddress :=
  getterSpec_of_shape _ _ _ _ _ (fun _ _ => rfl) (fun _ _ => rfl)

theorem toPhone_spec : GetterSpec RecordLength 0 ToPhone :=
  getterSpec_of_shape _ _ _ _ _ (fun _ _ => rfl) (fun _ _ => rfl)

theorem toEmail_spec : GetterSpec RecordLength 0 ToEmail :=
  getterSpec_of_shape _ _ _ _ _ (fun _ _ => rfl) (fun _ _ => rfl)

end idfactor

theorem atrisk_toNameAddress_spec :
    idfactor.GetterSpec idfactor.RecordLength 0 atrisk.ToNameAddress :=
  idfactor.getterSpec_of_shape _ _ _ _ _ (fun _ _ => rfl) (fun _ _ => rfl)

theorem atrisk_toNamePhone_spec :
    idfactor.GetterSpec idfactor.RecordLength 0 atrisk.ToNamePhone :=
  idfactor.getterSpec_of_shape _ _ _ _ _ (fun _ _ => rfl) (fun _ _ => rfl)

theorem compromised_toNameDob_spec :
    idfactor.GetterSpec compromised.RecordLength 1 compromised.ToNameDob :=
  idfactor.getterSpec_of_shape _ _ _ _ _ (fun _ _ => rfl) (fun _ _ => rfl)

theorem compromised_toSsn_spec :
    idfactor.GetterSpec compromised.RecordLength 1 compromised.ToSsn :=
  idfactor.getterSpec_of_shape _ _ _ _ _ (fun _ _ => rfl) (fun _ _ => rfl)

theorem compromised_toAddress_spec :
    idfactor.GetterSpec compromised.RecordLength 1 compromised.ToAddress :=
  idfactor.getterSpec_of_shape _ _ _ _ _ (fun _ _ => rfl) (fun _ _ => rfl)

theorem compromised_toPhone_spec :
    idfactor.GetterSpec compromised.RecordLength 1 compromised.ToPhone :=
  idfactor.getterSpec_of_shape _ _ _ _ _ (fun _ _ => rfl) (fun _ _ => rfl)

theorem compromised_toEmail_spec :
    idfactor.GetterSpec compromised.RecordLength 1 compromised.ToEmail :=
  idfactor.getterSpec_of_shape _ _ _ _ _ (fun _ _ => rfl) (fun _ _ => rfl)

theorem compromised_toNameAddress_spec :
    idfactor.GetterSpec compromised.RecordLength 1 compromised.ToNameAddress :=
  idfactor.getterSpec_of_shape _ _ _ _ _ (fun _ _ => rfl) (fun _ _ => rfl)

theorem compromised_toNamePhone_spec :
    idfactor.GetterSpec compromised.RecordLength 1 compromised.ToNamePhone :=
  idfactor.getterSpec_of_shape _ _ _ _ _ (fun _ _ => rfl) (fun _ _ => rfl)

namespace idfactor

/-- The record id the writer loop reads (field 0 of the record at shuffled
index `q.2`) before extracting. -/
def keyAt (recs : List (List String)) (q : Nat × Nat) : String :=
  (recs.getD q.2 []).getD RecordIDField ""

/-- The element row the `q.1`-th loop iteration writes for shuffled index
`q.2`, if the getter produces one. -/
def emitRow (recs : List (List String)) (get : List String → String → ExtractResult)
    (ids : Nat → String) (q : Nat × Nat) : Option (List String) :=
  match get (recs.getD q.2 []) (ids q.1) with
  | .fragment e => Option.some e
  | _ => Option.none

/-- True when iteration `q` writes a row. -/
def emits (recs : List (List String)) (get : List String → String → ExtractResult)
    (ids : Nat → String) (q : Nat × Nat) : Bool :=
  (emitRow recs get ids q).isSome

/-- True when iteration `q` writes a row whose record id is `x`, i.e. when it
stores the binding `x ↦ ids q.1` into the map. -/
def emitsFor (recs : List (List String)) (get : List String → String → ExtractResult)
    (ids : Nat → String) (x : String) (q : Nat × Nat) : Bool :=
  emits recs get ids q && decide (keyAt recs q = x)

/-- The map update performed by iteration `q`. -/
def mapStep (recs : List (List String)) (get : List String → String → ExtractResult)
    (ids : Nat → String) (m : List (String × String)) (q : Nat × Nat) : List (String × String) :=
  match get (recs.getD q.2 []) (ids q.1) with
  | .fragment _ => mapInsert m (keyAt recs q) (ids q.1)
  | _ => m

/-- The loop's iterations: consecutive counters (starting at `k`) paired with
the shuffled indices. -/
def counterPairs : Nat → List Nat → List (Nat × Nat)
  | _, [] => []
  | k, i :: rest => (k, i) :: counterPairs (k + 1) rest

/-- The last iteration of `ps` that stores a map binding for key `x`. -/
def lastEmit (recs : List (List String)) (get : List String → String → ExtractResult)
    (ids : Nat → String) (x : String) : List (Nat × Nat) → Option (Nat × Nat)
  | [] => Option.none
  | q :: rest =>
    match lastEmit recs get ids x rest with
    | Option.some r => Option.some r
    | Option.none => if emitsFor recs get ids x q then Option.some q else Option.none

theorem counterPairs_snd (p : List Nat) : ∀ k, (counterPairs k p).map Prod.snd = p := by
  induction p with
  | nil => intro k; rfl
  | cons i rest ih => intro k; simp [counterPairs, ih]

theorem counterPairs_fst_ge (p : List Nat) :
    ∀ k q, q ∈ counterPairs k p → k ≤ q.1 := by
  induction p with
  | nil => intro k q hq; simp [counterPairs] at hq
  | cons i rest ih =>
    intro k q hq
    rcases List.mem_cons.mp hq with rfl | hq
    · exact le_rfl
    · exact Nat.le_of_succ_le (ih (k + 1) q hq)

theorem counterPairs_fst_lt (p : List Nat) :
    ∀ k q, q ∈ counterPairs k p → q.1 < k + p.length := by
  induction p with
  | nil => intro k q hq; simp [counterPairs] at hq
  | cons i rest ih =>
    intro k q hq
    rcases List.mem_cons.mp hq with rfl | hq
    · simp
    · have := ih (k + 1) q hq
      simpa [Nat.add_comm, Nat.add_left_comm] using Nat.lt_of_lt_of_le this (by omega)

theorem counterPairs_fst_nodup (p : List Nat) :
    ∀ k, ((counterPairs k p).map Prod.fst).Nodup := by
  induction p with
  | nil => intro k; simp [counterPairs]
  | cons i rest ih =>
    intro k
    simp only [counterPairs, List.map_cons, List.nodup_cons]
    refine ⟨?_, ih (k + 1)⟩
    intro hk
    obtain ⟨q, hq, hqk⟩ := List.mem_map.mp hk
    have := counterPairs_fst_ge rest (k + 1) q hq
    omega

theorem mem_counterPairs_of_mem (p : List Nat) (k i : Nat) (hi : i ∈ p) :
    ∃ q ∈ counterPairs k p, q.2 = i := by
  have : i ∈ (counterPairs k p).map Prod.snd := by rw [counterPairs_snd]; exact hi
  obtain ⟨q, hq, hqi⟩ := List.mem_map.mp this
  exact ⟨q, hq, hqi⟩

theorem snd_mem_of_mem_counterPairs (p : List Nat) (k : Nat) (q : Nat × Nat)
    (hq : q ∈ counterPairs k p) : q.2 ∈ p := by
  have : q.2 ∈ (counterPairs k p).map Prod.snd := List.mem_map_of_mem Prod.snd hq
  rwa [counterPairs_snd] at this

theorem counterPairs_length (p : List Nat) : ∀ k, (counterPairs k p).length = p.length := by
  induction p with
  | nil => intro k; rfl
  | cons i rest ih => intro k; simp [counterPairs, ih]

theorem countP_mapInsert_self (m : List (String × String)) (x v : String) :
    ((mapInsert m x v).countP fun p => p.1 = x) = 1 := by
  rw [mapInsert, List.countP_append]
  have h1 : ((m.filter fun p => p.1 ≠ x).countP fun p => p.1 = x) = 0 := by
    rw [List.countP_eq_zero]
    intro a ha
    have := List.of_mem_filter ha
    simp at this ⊢
    exact this
  rw [h1]
  simp [List.countP_cons]

theorem countP_filter_ne (m : List (String × String)) (x y : String) (h : y ≠ x) :
    ((m.filter fun p => p.1 ≠ y).countP fun p => p.1 = x) = m.countP fun p => p.1 = x := by
  induction m with
  | nil => rfl
  | cons a t ih =>
    rw [List.filter_cons]
    by_cases ha : a.1 = y
    · rw [if_neg (by simp [ha]), ih, List.countP_cons, if_neg (by simp [ha, h]), Nat.add_zero]
    · rw [if_pos (by simp [ha]), List.countP_cons, List.countP_cons, ih]

theorem countP_mapInsert_ne (m : List (String × String)) (x y v : String) (h : y ≠ x) :
    ((mapInsert m y v).countP fun p => p.1 = x) = m.countP fun p => p.1 = x := by
  rw [mapInsert, List.countP_append, countP_filter_ne m x y h]
  simp [List.countP_cons, h]

theorem lookup_filter_ne_self (m : List (String × String)) (x : String) :
    ((m.filter fun p => p.1 ≠ x).lookup x) = Option.none := by
  induction m with
  | nil => rfl
  | cons a t ih =>
    rw [List.filter_cons]
    by_cases ha : a.1 = x
    · rw [if_neg (by simp [ha])]
      exact ih
    · rw [if_pos (by simp [ha])]
      cases a with
      | mk k v =>
        have hk : (x == k) = false := by
          simp only [beq_eq_false_iff_ne, ne_eq]
          intro he
          exact ha (by simp [← he])
        rw [List.lookup_cons, hk]
        exact ih

theorem lookup_filter_ne_other (m : List (String × String)) (x y : String) (h : x ≠ y) :
    ((m.filter fun p => p.1 ≠ y).lookup x) = m.lookup x := by
  induction m with
  | nil => rfl
  | cons a t ih =>
    rw [List.filter_cons]
    cases a with
    | mk k v =>
      by_cases ha : k = y
      · have hk : (x == k) = false := by
          simp only [beq_eq_false_iff_ne, ne_eq]
          rw [ha]
          exact h
        rw [if_neg (by simp [ha]), List.lookup_cons, hk, ih]
      · rw [if_pos (by simp [ha])]
        by_cases hx : x = k
        · have hk : (x == k) = true := by simpa using hx
          rw [List.lookup_cons, List.lookup_cons, hk]
        · have hk : (x == k) = false := by
            simp only [beq_eq_false_iff_ne, ne_eq]
            exact hx
          rw [List.lookup_cons, List.lookup_cons, hk, ih]

theorem lookup_mapInsert_self (m : List (String × String)) (x v : String) :
    (mapInsert m x v).lookup x = Option.some v := by
  rw [mapInsert, List.lookup_append, lookup_filter_ne_self]
  rw [List.lookup_cons]
  simp

theorem lookup_mapInsert_ne (m : List (String × String)) (x y v : String) (h : x ≠ y) :
    (mapInsert m y v).lookup x = m.lookup x := by
  rw [mapInsert, List.lookup_append, lookup_filter_ne_other m x y h]
  have h2 : (([(y, v)] : List (String × String)).lookup x) = Option.none := by
    rw [List.lookup_cons, show (x == y) = false from by simpa using h]
    rfl
  rw [h2]
  cases m.lookup x <;> rfl

theorem mem_mapInsert (m : List (String × String)) (k v : String) (p : String × String)
    (hp : p ∈ mapInsert m k v) : p ∈ m ∨ p = (k, v) := by
  rw [mapInsert] at hp
  rcases List.mem_append.mp hp with h | h
  · exact Or.inl (List.mem_of_mem_filter h)
  · exact Or.inr (by simpa using h)

theorem keys_nodup_mapInsert (m : List (String × String)) (k v : String)
    (h : (m.map Prod.fst).Nodup) : ((mapInsert m k v).map Prod.fst).Nodup := by
  rw [mapInsert, List.map_append]
  refine List.Nodup.append ?_ (by simp) ?_
  · exact h.sublist (List.Sublist.map Prod.fst (List.filter_sublist m))
  · intro a ha hb
    simp at hb
    obtain ⟨p, hp, hpa⟩ := List.mem_map.mp ha
    have := List.of_mem_filter hp
    simp at this
    exact this (hpa.trans hb)

theorem lookup_of_mem_of_keys_nodup (m : List (String × String))
    (h : (m.map Prod.fst).Nodup) (p : String × String) (hp : p ∈ m) :
    m.lookup p.1 = Option.some p.2 := by
  induction m with
  | nil => simp at hp
  | cons a t ih =>
    have h' : (a.1 :: t.map Prod.fst).Nodup := by
      rw [List.map_cons] at h
      exact h
    obtain ⟨hka, hnd⟩ := List.nodup_cons.mp h'
    rcases List.mem_cons.mp hp with rfl | hp2
    · cases p with
      | mk k v =>
        rw [List.lookup_cons]
        simp
    · cases a with
      | mk k v =>
        have hmem : p.1 ∈ t.map Prod.fst := List.mem_map_of_mem Prod.fst hp2
        have hne : (p.1 == k) = false := by
          simp only [beq_eq_false_iff_ne, ne_eq]
          intro he
          rw [he] at hmem
          exact hka hmem
        rw [List.lookup_cons, hne]
        exact ih hnd hp2

end idfactor

namespace idfactor

theorem length_filterMap_eq (f : Nat × Nat → Option (List String)) (l : List (Nat × Nat)) :
    (l.filterMap f).length = l.countP fun a => (f a).isSome := by
  induction l with
  | nil => rfl
  | cons a t ih =>
    cases hf : f a <;> simp [List.filterMap_cons, hf, List.countP_cons, ih]

theorem emitRow_fatal (recs : List (List String)) (get : List String → String → ExtractResult)
    (ids : Nat → String) (q : Nat × Nat) (h : get (recs.getD q.2 []) (ids q.1) = .fatal) :
    emitRow recs get ids q = Option.none := by
  unfold emitRow
  rw [h]

theorem emitRow_suppressed (recs : List (List String)) (get : List String → String → ExtractResult)
    (ids : Nat → String) (q : Nat × Nat) (h : get (recs.getD q.2 []) (ids q.1) = .suppressed) :
    emitRow recs get ids q = Option.none := by
  unfold emitRow
  rw [h]

theorem emitRow_fragment (recs : List (List String)) (get : List String → String → ExtractResult)
    (ids : Nat → String) (q : Nat × Nat) (e : List String)
    (h : get (recs.getD q.2 []) (ids q.1) = .fragment e) :
    emitRow recs get ids q = Option.some e := by
  unfold emitRow
  rw [h]

theorem mapStep_fatal (recs : List (List String)) (get : List String → String → ExtractResult)
    (ids : Nat → String) (m : List (String × String)) (q : Nat × Nat)
    (h : get (recs.getD q.2 []) (ids q.1) = .fatal) : mapStep recs get ids m q = m := by
  unfold mapStep
  rw [h]

theorem mapStep_suppressed (recs : List (List String)) (get : List String → String → ExtractResult)
    (ids : Nat → String) (m : List (String × String)) (q : Nat × Nat)
    (h : get (recs.getD q.2 []) (ids q.1) = .suppressed) : mapStep recs get ids m q = m := by
  unfold mapStep
  rw [h]

theorem mapStep_fragment (recs : List (List String)) (get : List String → String → ExtractResult)
    (ids : Nat → String) (m : List (String × String)) (q : Nat × Nat) (e : List String)
    (h : get (recs.getD q.2 []) (ids q.1) = .fragment e) :
    mapStep recs get ids m q = mapInsert m (keyAt recs q) (ids q.1) := by
  unfold mapStep
  rw [h]

theorem emits_fatal (recs : List (List String)) (get : List String → String → ExtractResult)
    (ids : Nat → String) (q : Nat × Nat) (h : get (recs.getD q.2 []) (ids q.1) = .fatal) :
    emits recs get ids q = false := by
  unfold emits
  rw [emitRow_fatal recs get ids q h]
  rfl

theorem emits_suppressed (recs : List (List String)) (get : List String → String → ExtractResult)
    (ids : Nat → String) (q : Nat × Nat) (h : get (recs.getD q.2 []) (ids q.1) = .suppressed) :
    emits recs get ids q = false := by
  unfold emits
  rw [emitRow_suppressed recs get ids q h]
  rfl

theorem emits_fragment (recs : List (List String)) (get : List String → String → ExtractResult)
    (ids : Nat → String) (q : Nat × Nat) (e : List String)
    (h : get (recs.getD q.2 []) (ids q.1) = .fragment e) :
    emits recs get ids q = true := by
  unfold emits
  rw [emitRow_fragment recs get ids q e h]
  rfl

theorem emitsFor_of_not_emits (recs : List (List String))
    (get : List String → String → ExtractResult) (ids : Nat → String) (x : String)
    (q : Nat × Nat) (h : emits recs get ids q = false) :
    emitsFor recs get ids x q = false := by
  unfold emitsFor
  rw [h]
  rfl

theorem emitsFor_fragment (recs : List (List String))
    (get : List String → String → ExtractResult) (ids : Nat → String) (x : String)
    (q : Nat × Nat) (e : List String) (h : get (recs.getD q.2 []) (ids q.1) = .fragment e) :
    emitsFor recs get ids x q = decide (keyAt recs q = x) := by
  unfold emitsFor
  rw [emits_fragment recs get ids q e h, Bool.true_and]

theorem mapFold_countP (recs : List (List String)) (get : List String → String → ExtractResult)
    (ids : Nat → String) (x : String) :
    ∀ (ps : List (Nat × Nat)) (m : List (String × String)),
      ((ps.foldl (mapStep recs get ids) m).countP fun p => p.1 = x)
        = if ps.any (emitsFor recs get ids x) then 1 else m.countP fun p => p.1 = x := by
  intro ps
  induction ps with
  | nil => intro m; simp
  | cons q rest ih =>
    intro m
    rw [List.foldl_cons, ih, List.any_cons]
    cases hres : get (recs.getD q.2 []) (ids q.1) with
    | fatal =>
      rw [emitsFor_of_not_emits recs get ids x q (emits_fatal recs get ids q hres),
        mapStep_fatal recs get ids m q hres, Bool.false_or]
    | suppressed =>
      rw [emitsFor_of_not_emits recs get ids x q (emits_suppressed recs get ids q hres),
        mapStep_suppressed recs get ids m q hres, Bool.false_or]
    | fragment e =>
      rw [mapStep_fragment recs get ids m q e hres, emitsFor_fragment recs get ids x q e hres]
      by_cases hk : keyAt recs q = x
      · rw [hk]
        rw [show decide (x = x) = true from by simp, Bool.true_or, if_pos rfl]
        cases hrest : rest.any (emitsFor recs get ids x)
        · rw [if_neg (by simp), countP_mapInsert_self]
        · rw [if_pos rfl]
      · rw [show decide (keyAt recs q = x) = false from by simpa using hk, Bool.false_or,
          countP_mapInsert_ne m x (keyAt recs q) (ids q.1) hk]

theorem lastEmit_isSome_iff (recs : List (List String)) (get : List String → String → ExtractResult)
    (ids : Nat → String) (x : String) :
    ∀ ps : List (Nat × Nat),
      (lastEmit recs get ids x ps).isSome = ps.any (emitsFor recs get ids x) := by
  intro ps
  induction ps with
  | nil => rfl
  | cons q rest ih =>
    rw [List.any_cons]
    simp only [lastEmit]
    cases hL : lastEmit recs get ids x rest with
    | some r =>
      rw [hL] at ih
      simp [← ih]
    | none =>
      rw [hL] at ih
      cases he : emitsFor recs get ids x q
      · simp [he, ← ih]
      · simp [he]

theorem lastEmit_mem (recs : List (List String)) (get : List String → String → ExtractResult)
    (ids : Nat → String) (x : String) :
    ∀ (ps : List (Nat × Nat)) (q : Nat × Nat), lastEmit recs get ids x ps = Option.some q →
      q ∈ ps ∧ emitsFor recs get ids x q = true := by
  intro ps
  induction ps with
  | nil => intro q h; simp [lastEmit] at h
  | cons q0 rest ih =>
    intro q h
    simp only [lastEmit] at h
    cases hL : lastEmit recs get ids x rest with
    | some r =>
      rw [hL] at h
      obtain ⟨hmem, hemit⟩ := ih r hL
      exact (Option.some.inj h) ▸ ⟨List.mem_cons_of_mem q0 hmem, hemit⟩
    | none =>
      rw [hL] at h
      by_cases he : emitsFor recs get ids x q0 = true
      · rw [if_pos he] at h
        exact (Option.some.inj h) ▸ ⟨List.mem_cons_self q0 rest, he⟩
      · rw [if_neg he] at h
        simp at h

theorem mapFold_lookup (recs : List (List String)) (get : List String → String → ExtractResult)
    (ids : Nat → String) (x : String) :
    ∀ (ps : List (Nat × Nat)) (m : List (String × String)),
      ((ps.foldl (mapStep recs get ids) m).lookup x)
        = match lastEmit recs get ids x ps with
          | Option.some q => Option.some (ids q.1)
          | Option.none => m.lookup x := by
  intro ps
  induction ps with
  | nil => intro m; rfl
  | cons q rest ih =>
    intro m
    rw [List.foldl_cons, ih]
    simp only [lastEmit]
    cases hL : lastEmit recs get ids x rest with
    | some r => rfl
    | none =>
      cases hres : get (recs.getD q.2 []) (ids q.1) with
      | fatal =>
        rw [emitsFor_of_not_emits recs get ids x q (emits_fatal recs get ids q hres)]
        rw [mapStep_fatal recs get ids m q hres]
        rfl
      | suppressed =>
        rw [emitsFor_of_not_emits recs get ids x q (emits_suppressed recs get ids q hres)]
        rw [mapStep_suppressed recs get ids m q hres]
        rfl
      | fragment e =>
        rw [mapStep_fragment recs get ids m q e hres, emitsFor_fragment recs get ids x q e hres]
        by_cases hk : keyAt recs q = x
        · rw [show decide (keyAt recs q = x) = true from by simpa using hk, if_pos rfl]
          rw [hk, lookup_mapInsert_self]
        · rw [show decide (keyAt recs q = x) = false from by simpa using hk]
          rw [lookup_mapInsert_ne m x (keyAt recs q) (ids q.1) (fun hxk => hk hxk.symm)]
          rfl

theorem mem_mapFold (recs : List (List String)) (get : List String → String → ExtractResult)
    (ids : Nat → String) :
    ∀ (ps : List (Nat × Nat)) (m : List (String × String)) (p : String × String),
      p ∈ ps.foldl (mapStep recs get ids) m →
      p ∈ m ∨ ∃ q ∈ ps, emits recs get ids q = true ∧ p = (keyAt recs q, ids q.1) := by
  intro ps
  induction ps with
  | nil => intro m p hp; exact Or.inl hp
  | cons q rest ih =>
    intro m p hp
    rw [List.foldl_cons] at hp
    rcases ih (mapStep recs get ids m q) p hp with h | ⟨q2, hq2, hextra⟩
    · cases hres : get (recs.getD q.2 []) (ids q.1) with
      | fatal =>
        rw [mapStep_fatal recs get ids m q hres] at h
        exact Or.inl h
      | suppressed =>
        rw [mapStep_suppressed recs get ids m q hres] at h
        exact Or.inl h
      | fragment e =>
        rw [mapStep_fragment recs get ids m q e hres] at h
        rcases mem_mapInsert _ _ _ _ h with h2 | h2
        · exact Or.inl h2
        · exact Or.inr ⟨q, List.mem_cons_self q rest,
            emits_fragment recs get ids q e hres, h2⟩
    · exact Or.inr ⟨q2, List.mem_cons_of_mem q hq2, hextra⟩

theorem keys_nodup_mapFold (recs : List (List String)) (get : List String → String → ExtractResult)
    (ids : Nat → String) :
    ∀ (ps : List (Nat × Nat)) (m : List (String × String)),
      (m.map Prod.fst).Nodup → ((ps.foldl (mapStep recs get ids) m).map Prod.fst).Nodup := by
  intro ps
  induction ps with
  | nil => intro m h; exact h
  | cons q rest ih =>
    intro m h
    rw [List.foldl_cons]
    apply ih
    cases hres : get (recs.getD q.2 []) (ids q.1) with
    | fatal => rw [mapStep_fatal recs get ids m q hres]; exact h
    | suppressed => rw [mapStep_suppressed recs get ids m q hres]; exact h
    | fragment e =>
      rw [mapStep_fragment recs get ids m q e hres]
      exact keys_nodup_mapInsert m _ _ h

theorem writeLoop_fatal_step (recs : List (List String))
    (get : List String → String → ExtractResult) (ids : Nat → String) (i : Nat)
    (rest : List Nat) (k : Nat) (rows : List (List String)) (m : List (String × String))
    (h : get (recs.getD i []) (ids k) = .fatal) :
    writeLoop recs get ids (i :: rest) k rows m = (true, rows, m) := by
  unfold writeLoop
  simp only [h]

theorem writeLoop_suppressed_step (recs : List (List String))
    (get : List String → String → ExtractResult) (ids : Nat → String) (i : Nat)
    (rest : List Nat) (k : Nat) (rows : List (List String)) (m : List (String × String))
    (h : get (recs.getD i []) (ids k) = .suppressed) :
    writeLoop recs get ids (i :: rest) k rows m = writeLoop recs get ids rest (k + 1) rows m := by
  unfold writeLoop
  simp only [h]
  cases rest <;> rfl

theorem writeLoop_fragment_step (recs : List (List String))
    (get : List String → String → ExtractResult) (ids : Nat → String) (i : Nat)
    (rest : List Nat) (k : Nat) (rows : List (List String)) (m : List (String × String))
    (e : List String) (h : get (recs.getD i []) (ids k) = .fragment e) :
    writeLoop recs get ids (i :: rest) k rows m
      = writeLoop recs get ids rest (k + 1) (rows ++ [e])
          (mapInsert m ((recs.getD i []).getD RecordIDField "") (ids k)) := by
  unfold writeLoop
  simp only [h]
  cases rest <;> rfl

theorem writeLoop_fatal_iff (recLen pos : Nat) (get : List String → String → ExtractResult)
    (hg : GetterSpec recLen pos get) (recs : List (List String)) (ids : Nat → String) :
    ∀ (p : List Nat) (k : Nat) (rows : List (List String)) (m : List (String × String)),
      ((writeLoop recs get ids p k rows m).1 = true ↔
        ∃ i ∈ p, (recs.getD i []).length ≠ recLen) := by
  intro p
  induction p with
  | nil =>
    intro k rows m
    simp [writeLoop]
  | cons i rest ih =>
    intro k rows m
    cases hres : get (recs.getD i []) (ids k) with
    | fatal =>
      rw [writeLoop_fatal_step recs get ids i rest k rows m hres]
      constructor
      · intro _
        exact ⟨i, List.mem_cons_self i rest, (hg.fatal_iff _ _).mp hres⟩
      · intro _
        rfl
    | suppressed =>
      rw [writeLoop_suppressed_step recs get ids i rest k rows m hres, ih]
      constructor
      · rintro ⟨i2, hi2, hlen⟩
        exact ⟨i2, List.mem_cons_of_mem i hi2, hlen⟩
      · rintro ⟨i2, hi2, hlen⟩
        rcases List.mem_cons.mp hi2 with rfl | hi2
        · exact absurd ((hg.fatal_iff _ (ids k)).mpr hlen) (by rw [hres]; simp)
        · exact ⟨i2, hi2, hlen⟩
    | fragment e =>
      rw [writeLoop_fragment_step recs get ids i rest k rows m e hres, ih]
      constructor
      · rintro ⟨i2, hi2, hlen⟩
        exact ⟨i2, List.mem_cons_of_mem i hi2, hlen⟩
      · rintro ⟨i2, hi2, hlen⟩
        rcases List.mem_cons.mp hi2 with rfl | hi2
        · exact absurd ((hg.fatal_iff _ (ids k)).mpr hlen) (by rw [hres]; simp)
        · exact ⟨i2, hi2, hlen⟩

theorem writeLoop_ok (recLen pos : Nat) (get : List String → String → ExtractResult)
    (hg : GetterSpec recLen pos get) (recs : List (List String)) (ids : Nat → String) :
    ∀ (p : List Nat) (k : Nat) (rows : List (List String)) (m : List (String × String)),
      (∀ i ∈ p, (recs.getD i []).length = recLen) →
      writeLoop recs get ids p k rows m
        = (false, rows ++ (counterPairs k p).filterMap (emitRow recs get ids),
            (counterPairs k p).foldl (mapStep recs get ids) m) := by
  intro p
  induction p with
  | nil =>
    intro k rows m _
    simp [writeLoop, counterPairs]
  | cons i rest ih =>
    intro k rows m hlen
    have hi := hlen i (List.mem_cons_self i rest)
    have hrest : ∀ i2 ∈ rest, (recs.getD i2 []).length = recLen :=
      fun i2 h2 => hlen i2 (List.mem_cons_of_mem i h2)
    cases hres : get (recs.getD i []) (ids k) with
    | fatal =>
      exact absurd ((hg.fatal_iff _ _).mp hres) (fun hne => hne hi)
    | suppressed =>
      rw [writeLoop_suppressed_step recs get ids i rest k rows m hres, ih (k + 1) rows m hrest]
      have hrow : emitRow recs get ids (k, i) = Option.none :=
        emitRow_suppressed recs get ids (k, i) hres
      have hstep : mapStep recs get ids m (k, i) = m :=
        mapStep_suppressed recs get ids m (k, i) hres
      rw [show counterPairs k (i :: rest) = (k, i) :: counterPairs (k + 1) rest from rfl,
        List.filterMap_cons, hrow, List.foldl_cons, hstep]
    | fragment e =>
      rw [writeLoop_fragment_step recs get ids i rest k rows m e hres,
        ih (k + 1) (rows ++ [e]) _ hrest]
      have hrow : emitRow recs get ids (k, i) = Option.some e :=
        emitRow_fragment recs get ids (k, i) e hres
      rw [show counterPairs k (i :: rest) = (k, i) :: counterPairs (k + 1) rest from rfl,
        List.filterMap_cons, hrow, List.foldl_cons,
        mapStep_fragment recs get ids m (k, i) e hres]
      rw [List.append_cons rows e ((counterPairs (k + 1) rest).filterMap (emitRow recs get ids))]
      rfl

theorem countP_fst_unique (ps : List (Nat × Nat)) (hnodup : (ps.map Prod.fst).Nodup)
    (q0 : Nat × Nat) (hq0 : q0 ∈ ps) (B : Nat × Nat → Bool) (hB : B q0 = true) :
    (ps.countP fun q => B q && decide (q.1 = q0.1)) = 1 := by
  induction ps with
  | nil => simp at hq0
  | cons q rest ih =>
    have h2 : (q.1 :: rest.map Prod.fst).Nodup := by
      rw [List.map_cons] at hnodup
      exact hnodup
    obtain ⟨hknotin, hnd⟩ := List.nodup_cons.mp h2
    rw [List.countP_cons]
    rcases List.mem_cons.mp hq0 with rfl | hq0
    · have hzero : (rest.countP fun q2 => B q2 && decide (q2.1 = q0.1)) = 0 := by
        rw [List.countP_eq_zero]
        intro a ha
        simp only [Bool.and_eq_true, decide_eq_true_eq, not_and]
        intro _ hfst
        exact absurd (hfst ▸ List.mem_map_of_mem Prod.fst ha) hknotin
      rw [hzero, if_pos (by simp [hB])]
    · have hne : ¬(q.1 = q0.1) := by
        intro he
        exact hknotin (he ▸ List.mem_map_of_mem Prod.fst hq0)
      rw [ih hnd hq0, if_neg (by simp [hne])]

end idfactor


/-- Distinct record-id fields identify distinct row indices. -/
theorem rid_inj (recs : List (List String))
    (hnd : (recs.map fun r => r.getD idfactor.RecordIDField "").Nodup)
    (j1 j2 : Nat) (h1 : j1 < recs.length) (h2 : j2 < recs.length)
    (he : (recs.getD j1 []).getD idfactor.RecordIDField ""
      = (recs.getD j2 []).getD idfactor.RecordIDField "") : j1 = j2 := by
  have hb1 : j1 < (recs.map fun r => r.getD idfactor.RecordIDField "").length := by
    simpa using h1
  have hb2 : j2 < (recs.map fun r => r.getD idfactor.RecordIDField "").length := by
    simpa using h2
  rw [List.getD_eq_getElem recs [] h1, List.getD_eq_getElem recs [] h2] at he
  exact hnd.getElem_inj_iff.mp
    (show (recs.map fun r => r.getD idfactor.RecordIDField "")[j1]
        = (recs.map fun r => r.getD idfactor.RecordIDField "")[j2] from by
      rw [List.getElem_map, List.getElem_map]
      exact he)

/-- Byte length of a character list is additive over append. -/
theorem charsBytes_append (a b : List Char) :
    idfactor.charsBytes (a ++ b) = idfactor.charsBytes a + idfactor.charsBytes b := by
  simp [idfactor.charsBytes]

/-- While the bytes written so far fit in the 4096-byte bufio buffer, every
`Write` call takes the buffer-fill path and nothing is flushed. -/
theorem foldl_writeCall_small :
    ∀ (ps : List (List Char)) (b f : Nat),
      b + idfactor.charsBytes ps.flatten ≤ 4096 →
      ps.foldl idfactor.writeCall (b, f)
        = (b + idfactor.charsBytes ps.flatten, f) := by
  intro ps
  induction ps with
  | nil =>
    intro b f _
    simp [idfactor.charsBytes]
  | cons p rest ih =>
    intro b f hle
    have hsplit : idfactor.charsBytes ((p :: rest).flatten)
        = idfactor.charsBytes p + idfactor.charsBytes rest.flatten := by
      rw [List.flatten_cons, charsBytes_append]
    rw [hsplit] at hle
    have hc : idfactor.charsBytes p ≤ 4096 - b := by omega
    have hw : idfactor.writeCall (b, f) p = (b + idfactor.charsBytes p, f) := by
      simp [idfactor.writeCall, idfactor.bufioWrite, hc]
    rw [List.foldl_cons, hw, ih (b + idfactor.charsBytes p) f (by omega)]
    rw [hsplit, Nat.add_assoc]

/-- Serializing one csv row while the output still fits in the buffer only
grows the buffered-byte count. -/
theorem csvWriteRow_small (b f : Nat) (row : List String)
    (h : b + idfactor.charsBytes (idfactor.csvRowChars row) ≤ 4096) :
    idfactor.csvWriteRow (b, f) row
      = (b + idfactor.charsBytes (idfactor.csvRowChars row), f) :=
  foldl_writeCall_small (idfactor.rowPieces row) b f h

/-- Serializing a list of csv rows that keeps the output within the buffer
flushes nothing. -/
theorem csvRows_small :
    ∀ (rows : List (List String)) (b f : Nat),
      b + idfactor.charsBytes (rows.flatMap idfactor.csvRowChars) ≤ 4096 →
      rows.foldl idfactor.csvWriteRow (b, f)
        = (b + idfactor.charsBytes (rows.flatMap idfactor.csvRowChars), f) := by
  intro rows
  induction rows with
  | nil =>
    intro b f _
    simp [idfactor.charsBytes]
  | cons r rest ih =>
    intro b f hle
    have hsplit : idfactor.charsBytes ((r :: rest).flatMap idfactor.csvRowChars)
        = idfactor.charsBytes (idfactor.csvRowChars r)
          + idfactor.charsBytes (rest.flatMap idfactor.csvRowChars) := by
      rw [List.flatMap_cons, charsBytes_append]
    rw [hsplit] at hle
    rw [List.foldl_cons, csvWriteRow_small b f r (by omega)]
    rw [ih (b + idfactor.charsBytes (idfactor.csvRowChars r)) f (by omega)]
    rw [hsplit, Nat.add_assoc]

/-- C4 (amended): if the record table contains a row whose field count differs
from the active schema record length, the run aborts in `log.Fatal`, and as
long as the header together with the rows serialized before the abort fits in
the csv writer underlying 4096-byte bufio buffer, nothing — in particular no
header row — has reached the output sink: the final `Flush` is never executed
and the buffered bytes die with the process. (Without the buffer-fit bound the
conclusion fails: once the serialized output exceeds 4096 bytes, bufio
auto-flushes and the header reaches the sink before the abort.) -/
theorem C4_malformed_row_aborts_without_header (recLen pos : Nat)
    (get : List String → String → idfactor.ExtractResult)
    (hg : idfactor.GetterSpec recLen pos get) (recs : List (List String))
    (draws : Nat → Nat) (ids : Nat → String) (header : List String)
    (hd : ∀ i, i < recs.length → draws i ≤ i)
    (hbad : ∃ r ∈ recs, r.length ≠ recLen)
    (hsmall : idfactor.charsBytes (idfactor.csvRowChars header)
        + idfactor.charsBytes
            (((idfactor.writeToWriter draws ids recs header get).rows).flatMap
              idfactor.csvRowChars) ≤ 4096) :
    (idfactor.writeToWriter draws ids recs header get).fatal = true ∧
    (idfactor.writeToWriter draws ids recs header get).sink = [] := by
  obtain ⟨r, hr, hrlen⟩ := hbad
  obtain ⟨i0, hi0, hre⟩ := List.mem_iff_getElem.mp hr
  have hn : 1 ≤ recs.length := by omega
  have hperm := shuffle.shuffle_eq_fisherYates draws recs.length hn hd
  have hpr : (shuffle.fisherYates draws recs.length).Perm (List.range recs.length) :=
    shuffle.fyIter_perm draws recs.length hd recs.length le_rfl
  have hmem : i0 ∈ shuffle.fisherYates draws recs.length :=
    hpr.mem_iff.mpr (List.mem_range.mpr hi0)
  rcases hwl : idfactor.writeLoop recs get ids (shuffle.fisherYates draws recs.length) 0 [] []
    with ⟨b, rows, m⟩
  have hb : b = true := by
    have h1 := (idfactor.writeLoop_fatal_iff recLen pos get hg recs ids
      (shuffle.fisherYates draws recs.length) 0 [] []).mpr
      ⟨i0, hmem, by rw [List.getD_eq_getElem recs [] hi0, hre]; exact hrlen⟩
    rw [hwl] at h1
    exact h1
  subst hb
  have hout : idfactor.writeToWriter draws ids recs header get
      = ⟨true, rows,
          (idfactor.csvRowChars header ++ rows.flatMap idfactor.csvRowChars).take
            (rows.foldl idfactor.csvWriteRow
              (idfactor.csvWriteRow (0, 0) header)).2, []⟩ := by
    simp only [idfactor.writeToWriter, hperm, hwl]
  have hrows_eq : (idfactor.writeToWriter draws ids recs header get).rows = rows := by
    rw [hout]
  rw [hrows_eq] at hsmall
  have hhdr : idfactor.csvWriteRow (0, 0) header
      = (idfactor.charsBytes (idfactor.csvRowChars header), 0) := by
    have h0 := csvWriteRow_small 0 0 header (by omega)
    simpa using h0
  have hfold : rows.foldl idfactor.csvWriteRow (idfactor.csvWriteRow (0, 0) header)
      = (idfactor.charsBytes (idfactor.csvRowChars header)
          + idfactor.charsBytes (rows.flatMap idfactor.csvRowChars), 0) := by
    rw [hhdr]
    exact csvRows_small rows _ 0 (by omega)
  rw [hout]
  refine ⟨rfl, ?_⟩
  show ((idfactor.csvRowChars header ++ rows.flatMap idfactor.csvRowChars).take
      (rows.foldl idfactor.csvWriteRow (idfactor.csvWriteRow (0, 0) header)).2) = []
  rw [hfold]
  simp

theorem C4_malformed_row_aborts_without_header_witness :
    (idfactor.writeToWriter (fun _ => 0) (fun _ => "u") [["1"]]
      idfactor.ssnHeader idfactor.ToSsn).fatal = true ∧
    (idfactor.writeToWriter (fun _ => 0) (fun _ => "u") [["1"]]
      idfactor.ssnHeader idfactor.ToSsn).sink = [] :=
  C4_malformed_row_aborts_without_header idfactor.RecordLength 0 idfactor.ToSsn
    idfactor.toSsn_spec [["1"]] (fun _ => 0) (fun _ => "u") idfactor.ssnHeader
    (fun i _ => Nat.zero_le i) ⟨["1"], by simp, by simp [idfactor.RecordLength]⟩
    (by decide)

/-- An ssn value 4200 bytes long: its row overflows the 4096-byte bufio
buffer, forcing an auto-flush. -/
def longSsn : String := String.mk (List.replicate 4200 'x')

/-- A well-formed 14-field record whose ssn cell is `longSsn`. -/
def hugeSsnRecord : List String :=
  ["2", "", "", "", "", "", longSsn, "", "", "", "", "", "", ""]

/-- A malformed record with only 13 fields. -/
def thirteenFieldRecord : List String :=
  ["1", "", "", "", "", "", "9", "", "", "", "", "", ""]

/-- A predicate false at `c` is false on any replication of `c`. -/
theorem any_replicate_false (n : Nat) (c : Char) (p : Char → Bool) (h : p c = false) :
    (List.replicate n c).any p = false := by
  induction n with
  | zero => rfl
  | succ k ih =>
    rw [List.replicate_succ, List.any_cons, h, ih]
    rfl

/-- Byte length of a run of ascii `x` characters. -/
theorem charsBytes_replicate (n : Nat) : idfactor.charsBytes (List.replicate n 'x') = n := by
  unfold idfactor.charsBytes
  rw [List.map_replicate]
  rw [show Char.utf8Size 'x' = 1 from rfl]
  rw [List.sum_replicate]
  simp

/-- C4, counterexample to the unqualified claim: with all draws zero the
shuffle processes `hugeSsnRecord` first; its 4203-byte row overflows the
4096-byte bufio buffer, auto-flushing 4096 bytes — header included — to the
sink before `thirteenFieldRecord` triggers `log.Fatal`. The sink is not
empty and starts with the serialized header row. -/
theorem C4_counterexample_buffer_autoflush :
    (∃ r ∈ [thirteenFieldRecord, hugeSsnRecord], r.length ≠ idfactor.RecordLength) ∧
    (idfactor.writeToWriter (fun _ => 0) (fun _ => "u")
        [thirteenFieldRecord, hugeSsnRecord] idfactor.ssnHeader idfactor.ToSsn).fatal
      = true ∧
    (idfactor.writeToWriter (fun _ => 0) (fun _ => "u")
        [thirteenFieldRecord, hugeSsnRecord] idfactor.ssnHeader idfactor.ToSsn).sink.take
        (idfactor.csvRowChars idfactor.ssnHeader).length
      = idfactor.csvRowChars idfactor.ssnHeader ∧
    (idfactor.writeToWriter (fun _ => 0) (fun _ => "u")
        [thirteenFieldRecord, hugeSsnRecord] idfactor.ssnHeader idfactor.ToSsn).sink ≠ [] := by
  have hfrag : idfactor.ToSsn hugeSsnRecord "u"
      = idfactor.ExtractResult.fragment ["u", longSsn] := rfl
  have hfatal : idfactor.ToSsn thirteenFieldRecord "u" = idfactor.ExtractResult.fatal := rfl
  have hshuffle : shuffle.Shuffle (fun _ => 0)
      ([thirteenFieldRecord, hugeSsnRecord] : List (List String)).length = some [1, 0] := by
    decide
  have hloop : idfactor.writeLoop [thirteenFieldRecord, hugeSsnRecord] idfactor.ToSsn
      (fun _ => "u") [1, 0] 0 [] []
      = (true, [["u", longSsn]], idfactor.mapInsert [] "2" "u") := by
    rw [idfactor.writeLoop_fragment_step [thirteenFieldRecord, hugeSsnRecord] idfactor.ToSsn
      (fun _ => "u") 1 [0] 0 [] [] ["u", longSsn] hfrag]
    rw [idfactor.writeLoop_fatal_step [thirteenFieldRecord, hugeSsnRecord] idfactor.ToSsn
      (fun _ => "u") 0 [] (0 + 1) _ _ hfatal]
    rfl
  have hinit : idfactor.csvWriteRow (0, 0) idfactor.ssnHeader = (11, 0) := by decide
  have hne1 : longSsn ≠ "" := by
    intro h
    have h1 : longSsn.data.length = 4200 := by
      show (List.replicate 4200 'x').length = 4200
      rw [List.length_replicate]
    rw [h] at h1
    exact absurd h1 (by decide)
  have hne2 : longSsn ≠ "\\." := by
    intro h
    have h1 : longSsn.data.length = 4200 := by
      show (List.replicate 4200 'x').length = 4200
      rw [List.length_replicate]
    rw [h] at h1
    exact absurd h1 (by decide)
  have hany : (longSsn.data.any fun c => c = '\n' || c = '\r' || c = '"' || c = '|') = false := by
    show (List.replicate 4200 'x').any _ = false
    exact any_replicate_false 4200 'x' _ (by decide)
  have hq : idfactor.fieldNeedsQuotes longSsn = false := by
    unfold idfactor.fieldNeedsQuotes
    rw [if_neg hne1, if_neg hne2]
    simp only [hany, Bool.false_eq_true, if_false]
    rw [show longSsn.data = 'x' :: List.replicate 4199 'x' from rfl]
    decide
  have hfc : idfactor.fieldChars longSsn = List.replicate 4200 'x' := by
    simp only [idfactor.fieldChars, hq, Bool.false_eq_true, if_false]
    rfl
  have hcb : idfactor.charsBytes (idfactor.fieldChars longSsn) = 4200 := by
    rw [hfc]
    exact charsBytes_replicate 4200
  have hmid : idfactor.writeCall (13, 0) (idfactor.fieldChars longSsn) = (117, 4096) := by
    unfold idfactor.writeCall
    rw [hcb]
    decide
  have hrp : idfactor.rowPieces ["u", longSsn]
      = [['u'], ['|'], idfactor.fieldChars longSsn, ['\n']] := by
    simp only [idfactor.rowPieces, List.flatMap_cons, List.flatMap_nil]
    rw [show idfactor.fieldChars "u" = ['u'] from by decide]
    simp
  have hrowfold : idfactor.csvWriteRow (11, 0) ["u", longSsn] = (118, 4096) := by
    show (idfactor.rowPieces ["u", longSsn]).foldl idfactor.writeCall (11, 0) = (118, 4096)
    rw [hrp]
    rw [List.foldl_cons, List.foldl_cons, List.foldl_cons, List.foldl_cons, List.foldl_nil]
    rw [show idfactor.writeCall (11, 0) ['u'] = (12, 0) from by decide]
    rw [show idfactor.writeCall (12, 0) ['|'] = (13, 0) from by decide]
    rw [hmid]
    decide
  have hfold : ([["u", longSsn]] : List (List String)).foldl idfactor.csvWriteRow
      (idfactor.csvWriteRow (0, 0) idfactor.ssnHeader) = (118, 4096) := by
    rw [List.foldl_cons, List.foldl_nil, hinit]
    exact hrowfold
  have hout : idfactor.writeToWriter (fun _ => 0) (fun _ => "u")
      [thirteenFieldRecord, hugeSsnRecord] idfactor.ssnHeader idfactor.ToSsn
      = ⟨true, [["u", longSsn]],
          (idfactor.csvRowChars idfactor.ssnHeader
            ++ [["u", longSsn]].flatMap idfactor.csvRowChars).take
            ([["u", longSsn]].foldl idfactor.csvWriteRow
              (idfactor.csvWriteRow (0, 0) idfactor.ssnHeader)).2, []⟩ := by
    simp only [idfactor.writeToWriter, hshuffle, hloop]
  have hsink : (idfactor.writeToWriter (fun _ => 0) (fun _ => "u")
      [thirteenFieldRecord, hugeSsnRecord] idfactor.ssnHeader idfactor.ToSsn).sink
      = (idfactor.csvRowChars idfactor.ssnHeader
          ++ [["u", longSsn]].flatMap idfactor.csvRowChars).take 4096 := by
    rw [hout, hfold]
  refine ⟨⟨thirteenFieldRecord, by simp, by decide⟩, ?_, ?_, ?_⟩
  · rw [hout]
  · rw [hsink, List.take_take]
    rw [show (idfactor.csvRowChars idfactor.ssnHeader).length = 11 from by decide]
    rw [show min 11 4096 = 11 from by decide]
    exact List.take_left' (by decide)
  · rw [hsink]
    intro hnil
    have hlen := congrArg List.length hnil
    rw [List.length_take, List.length_append, List.length_nil] at hlen
    rw [show (idfactor.csvRowChars idfactor.ssnHeader).length = 11 from by decide] at hlen
    omega


/-- C2 (amended): when the table's record ids are pairwise distinct, all
records have the schema's length, and the generated surrogate ids are
pairwise distinct, then for every non-suppressed record the returned map has
exactly one entry for that record's id, and that entry's surrogate id occurs
exactly once among the written rows' surrogate-id cells; a suppressed record
leaves no entry in the map. -/
theorem C2_map_roundtrip (recLen pos : Nat)
    (get : List String → String → idfactor.ExtractResult)
    (hg : idfactor.GetterSpec recLen pos get) (recs : List (List String))
    (draws : Nat → Nat) (ids : Nat → String) (header : List String)
    (hd : ∀ i, i < recs.length → draws i ≤ i)
    (hinj : ∀ k1, k1 < recs.length → ∀ k2, k2 < recs.length → ids k1 = ids k2 → k1 = k2)
    (hlen : ∀ r ∈ recs, r.length = recLen)
    (hnd : (recs.map fun r => r.getD idfactor.RecordIDField "").Nodup) :
    ∀ r ∈ recs,
      (get r "" ≠ .suppressed →
        ((idfactor.writeToWriter draws ids recs header get).idmap.countP
            fun p => p.1 = r.getD idfactor.RecordIDField "") = 1 ∧
        ∃ sid, (idfactor.writeToWriter draws ids recs header get).idmap.lookup
            (r.getD idfactor.RecordIDField "") = Option.some sid ∧
          ((idfactor.writeToWriter draws ids recs header get).rows.countP
            fun e => e.getD pos "" = sid) = 1) ∧
      (get r "" = .suppressed →
        ((idfactor.writeToWriter draws ids recs header get).idmap.countP
            fun p => p.1 = r.getD idfactor.RecordIDField "") = 0) := by
  intro r hr
  obtain ⟨i0, hi0, hre⟩ := List.mem_iff_getElem.mp hr
  have hn : 1 ≤ recs.length := by omega
  have hperm := shuffle.shuffle_eq_fisherYates draws recs.length hn hd
  have hpr : (shuffle.fisherYates draws recs.length).Perm (List.range recs.length) :=
    shuffle.fyIter_perm draws recs.length hd recs.length le_rfl
  have hplen : (shuffle.fisherYates draws recs.length).length = recs.length := by
    rw [hpr.length_eq, List.length_range]
  have hpmem : ∀ i, i ∈ shuffle.fisherYates draws recs.length ↔ i < recs.length := by
    intro i
    rw [hpr.mem_iff, List.mem_range]
  have hlenp : ∀ i ∈ shuffle.fisherYates draws recs.length,
      (recs.getD i []).length = recLen := by
    intro i hi
    have hlt : i < recs.length := (hpmem i).mp hi
    rw [List.getD_eq_getElem recs [] hlt]
    exact hlen _ (List.getElem_mem hlt)
  have hloop := idfactor.writeLoop_ok recLen pos get hg recs ids
    (shuffle.fisherYates draws recs.length) 0 [] [] hlenp
  have hmap : (idfactor.writeToWriter draws ids recs header get).idmap
      = (idfactor.counterPairs 0 (shuffle.fisherYates draws recs.length)).foldl
          (idfactor.mapStep recs get ids) [] := by
    simp only [idfactor.writeToWriter, hperm, hloop]
  have hrows : (idfactor.writeToWriter draws ids recs header get).rows
      = (idfactor.counterPairs 0 (shuffle.fisherYates draws recs.length)).filterMap
          (idfactor.emitRow recs get ids) := by
    simp only [idfactor.writeToWriter, hperm, hloop]
    simp
  have hkeyto : ∀ q ∈ idfactor.counterPairs 0 (shuffle.fisherYates draws recs.length),
      idfactor.keyAt recs q = r.getD idfactor.RecordIDField "" → q.2 = i0 := by
    intro q hq hkq
    have hsnd : q.2 ∈ shuffle.fisherYates draws recs.length :=
      idfactor.snd_mem_of_mem_counterPairs _ 0 q hq
    have h2 : q.2 < recs.length := (hpmem q.2).mp hsnd
    apply rid_inj recs hnd q.2 i0 h2 hi0
    rw [List.getD_eq_getElem recs [] hi0, hre]
    exact hkq
  have hfstlt : ∀ q ∈ idfactor.counterPairs 0 (shuffle.fisherYates draws recs.length),
      q.1 < recs.length := by
    intro q hq
    have := idfactor.counterPairs_fst_lt (shuffle.fisherYates draws recs.length) 0 q hq
    omega
  constructor
  · intro hsup
    obtain ⟨q0, hq0, hq0snd⟩ := idfactor.mem_counterPairs_of_mem
      (shuffle.fisherYates draws recs.length) 0 i0 ((hpmem i0).mpr hi0)
    have hrecq0 : recs.getD q0.2 [] = r := by
      rw [hq0snd, List.getD_eq_getElem recs [] hi0, hre]
    have hfrag : ∃ e, get r (ids q0.1) = .fragment e := by
      cases hres : get r (ids q0.1) with
      | fatal => exact absurd ((hg.fatal_iff _ _).mp hres) (fun hne => hne (hlen r hr))
      | suppressed => exact absurd (hg.suppressed_indep r (ids q0.1) "" hres) hsup
      | fragment e => exact ⟨e, rfl⟩
    obtain ⟨e0, he0⟩ := hfrag
    have hemit : idfactor.emits recs get ids q0 = true :=
      idfactor.emits_fragment recs get ids q0 e0 (by rw [hrecq0]; exact he0)
    have hkey0 : idfactor.keyAt recs q0 = r.getD idfactor.RecordIDField "" := by
      unfold idfactor.keyAt
      rw [hrecq0]
    have hef : idfactor.emitsFor recs get ids (r.getD idfactor.RecordIDField "") q0 = true := by
      unfold idfactor.emitsFor
      rw [hemit, hkey0]
      simp
    have hany : (idfactor.counterPairs 0 (shuffle.fisherYates draws recs.length)).any
        (idfactor.emitsFor recs get ids (r.getD idfactor.RecordIDField "")) = true :=
      List.any_eq_true.mpr ⟨q0, hq0, hef⟩
    refine ⟨?_, ?_⟩
    · rw [hmap, idfactor.mapFold_countP recs get ids (r.getD idfactor.RecordIDField "") _ [],
        if_pos hany]
    · have hsome : (idfactor.lastEmit recs get ids (r.getD idfactor.RecordIDField "")
          (idfactor.counterPairs 0 (shuffle.fisherYates draws recs.length))).isSome = true := by
        rw [idfactor.lastEmit_isSome_iff]
        exact hany
      obtain ⟨qL, hqL⟩ := Option.isSome_iff_exists.mp hsome
      obtain ⟨hqLmem, hqLef⟩ := idfactor.lastEmit_mem recs get ids
        (r.getD idfactor.RecordIDField "") _ qL hqL
      have hqLemits : idfactor.emits recs get ids qL = true :=
        (Bool.and_eq_true_iff.mp (by
          unfold idfactor.emitsFor at hqLef
          exact hqLef)).1
      refine ⟨ids qL.1, ?_, ?_⟩
      · rw [hmap, idfactor.mapFold_lookup recs get ids (r.getD idfactor.RecordIDField "") _ [],
          hqL]
      · rw [hrows, List.countP_filterMap]
        have hcong : ∀ q ∈ idfactor.counterPairs 0 (shuffle.fisherYates draws recs.length),
            ((((idfactor.emitRow recs get ids q).map
                fun e => decide (e.getD pos "" = ids qL.1)).getD false) = true
              ↔ (idfactor.emits recs get ids q && decide (q.1 = qL.1)) = true) := by
          intro q hq
          cases hres : get (recs.getD q.2 []) (ids q.1) with
          | fatal =>
            rw [idfactor.emitRow_fatal recs get ids q hres,
              idfactor.emits_fatal recs get ids q hres]
            simp
          | suppressed =>
            rw [idfactor.emitRow_suppressed recs get ids q hres,
              idfactor.emits_suppressed recs get ids q hres]
            simp
          | fragment e =>
            rw [idfactor.emitRow_fragment recs get ids q e hres,
              idfactor.emits_fragment recs get ids q e hres]
            have hc := hg.cell _ _ _ hres
            simp only [Option.map_some', Option.getD_some, Bool.true_and]
            rw [hc]
            constructor
            · intro hid
              exact decide_eq_true (hinj q.1 (hfstlt q hq) qL.1 (hfstlt qL hqLmem)
                (of_decide_eq_true hid))
            · intro hfst
              exact decide_eq_true (by rw [of_decide_eq_true hfst])
        rw [List.countP_congr hcong]
        exact idfactor.countP_fst_unique _
          (idfactor.counterPairs_fst_nodup (shuffle.fisherYates draws recs.length) 0)
          qL hqLmem _ hqLemits
  · intro hsup
    have hnone : (idfactor.counterPairs 0 (shuffle.fisherYates draws recs.length)).any
        (idfactor.emitsFor recs get ids (r.getD idfactor.RecordIDField "")) = false := by
      rw [List.any_eq_false]
      intro q hq hef
      obtain ⟨hemit, hkq⟩ := Bool.and_eq_true_iff.mp (by
        unfold idfactor.emitsFor at hef
        exact hef)
      have hq2 : q.2 = i0 := hkeyto q hq (of_decide_eq_true hkq)
      have hrecq : recs.getD q.2 [] = r := by
        rw [hq2, List.getD_eq_getElem recs [] hi0, hre]
      cases hres : get (recs.getD q.2 []) (ids q.1) with
      | fatal => rw [idfactor.emits_fatal recs get ids q hres] at hemit; cases hemit
      | suppressed => rw [idfactor.emits_suppressed recs get ids q hres] at hemit; cases hemit
      | fragment e =>
        rw [hrecq] at hres
        have := hg.suppressed_indep r "" (ids q.1) hsup
        rw [this] at hres
        cases hres
    rw [hmap, idfactor.mapFold_countP recs get ids (r.getD idfactor.RecordIDField "") _ [],
      if_neg (fun hc => by rw [hnone] at hc; cases hc)]
    rfl


/-- A plain record with id "1" and every other field empty (every fragment
kind suppressed). -/
def dupEmptyRecord : List String :=
  ["1", "", "", "", "", "", "", "", "", "", "", "", "", ""]

/-- A plain record with id "1" and ssn "123" (ssn fragment not suppressed). -/
def dupSsnRecord : List String :=
  ["1", "", "", "", "", "", "123", "", "", "", "", "", "", ""]

/-- C2 as frozen is false when two records share a record id: here the table
holds two records with id "1", the first one's ssn fragment is suppressed,
yet the returned map still has an entry for id "1" (written by the other
duplicate), contradicting "records whose fragment is suppressed have no
entry in the map". -/
theorem C2_counterexample_duplicate_record_ids :
    idfactor.ToSsn dupEmptyRecord "u" = idfactor.ExtractResult.suppressed ∧
    dupEmptyRecord ∈ [dupEmptyRecord, dupSsnRecord] ∧
    dupEmptyRecord.getD idfactor.RecordIDField "" = "1" ∧
    ((idfactor.writeToWriter (fun _ => 0) (fun k => if k = 0 then "a" else "b")
        [dupEmptyRecord, dupSsnRecord] idfactor.ssnHeader idfactor.ToSsn).idmap.countP
      fun p => p.1 = "1") = 1 := by
  decide

/-- A plain record with id "1" and ssn "123". -/
def ssnRecordA : List String :=
  ["1", "", "", "", "", "", "123", "", "", "", "", "", "", ""]

/-- A plain record with id "2" and an empty ssn. -/
def ssnRecordB : List String :=
  ["2", "", "", "", "", "", "", "", "", "", "", "", "", ""]

theorem C2_map_roundtrip_witness :
    (((idfactor.writeToWriter (fun _ => 0) (fun k => if k = 0 then "a" else "b")
        [ssnRecordA, ssnRecordB] idfactor.ssnHeader idfactor.ToSsn).idmap.countP
          fun p => p.1 = ssnRecordA.getD idfactor.RecordIDField "") = 1 ∧
      ∃ sid, (idfactor.writeToWriter (fun _ => 0) (fun k => if k = 0 then "a" else "b")
          [ssnRecordA, ssnRecordB] idfactor.ssnHeader idfactor.ToSsn).idmap.lookup
            (ssnRecordA.getD idfactor.RecordIDField "") = Option.some sid ∧
        ((idfactor.writeToWriter (fun _ => 0) (fun k => if k = 0 then "a" else "b")
          [ssnRecordA, ssnRecordB] idfactor.ssnHeader idfactor.ToSsn).rows.countP
            fun e => e.getD 0 "" = sid) = 1) ∧
    ((idfactor.writeToWriter (fun _ => 0) (fun k => if k = 0 then "a" else "b")
        [ssnRecordA, ssnRecordB] idfactor.ssnHeader idfactor.ToSsn).idmap.countP
          fun p => p.1 = ssnRecordB.getD idfactor.RecordIDField "") = 0 := by
  have h := C2_map_roundtrip idfactor.RecordLength 0 idfactor.ToSsn idfactor.toSsn_spec
    [ssnRecordA, ssnRecordB] (fun _ => 0) (fun k => if k = 0 then "a" else "b")
    idfactor.ssnHeader (fun i _ => Nat.zero_le i) (by decide) (by decide) (by decide)
  exact ⟨(h ssnRecordA (by simp)).1 (by decide), (h ssnRecordB (by simp)).2 (by decide)⟩

theorem eq_of_fst_eq_of_nodup (ps : List (Nat × Nat)) (h : (ps.map Prod.fst).Nodup)
    (q1 q2 : Nat × Nat) (h1 : q1 ∈ ps) (h2 : q2 ∈ ps) (he : q1.1 = q2.1) : q1 = q2 := by
  induction ps with
  | nil => simp at h1
  | cons a t ih =>
    obtain ⟨hnotin, hnd⟩ := List.nodup_cons.mp (by rw [List.map_cons] at h; exact h)
    rcases List.mem_cons.mp h1 with rfl | h1b
    · rcases List.mem_cons.mp h2 with rfl | h2b
      · rfl
      · have hm := List.mem_map_of_mem Prod.fst h2b
        rw [← he] at hm
        exact absurd hm hnotin
    · rcases List.mem_cons.mp h2 with rfl | h2b
      · have hm := List.mem_map_of_mem Prod.fst h1b
        rw [he] at hm
        exact absurd hm hnotin
      · exact ih hnd h1b h2b


/-- C10: even when several records share a record id, the writer still writes
one data row per non-suppressed record (a row per emitting iteration), but
the returned map keeps only a single entry per record id — bound to the
surrogate id generated at the last iteration, in shuffled processing order,
that emitted a row for that id — and the surrogate ids written by the other
duplicates appear in no map entry. -/
theorem C10_duplicate_ids_last_write_wins (recLen pos : Nat)
    (get : List String → String → idfactor.ExtractResult)
    (hg : idfactor.GetterSpec recLen pos get) (recs : List (List String))
    (draws : Nat → Nat) (ids : Nat → String) (header : List String)
    (hd : ∀ i, i < recs.length → draws i ≤ i)
    (hinj : ∀ k1, k1 < recs.length → ∀ k2, k2 < recs.length → ids k1 = ids k2 → k1 = k2)
    (hlen : ∀ r ∈ recs, r.length = recLen)
    (hne : 1 ≤ recs.length) :
    ∃ perm, shuffle.Shuffle draws recs.length = Option.some perm ∧
      (idfactor.writeToWriter draws ids recs header get).fatal = false ∧
      (idfactor.writeToWriter draws ids recs header get).rows.length
        = (idfactor.counterPairs 0 perm).countP (idfactor.emits recs get ids) ∧
      ∀ x : String,
        ((idfactor.writeToWriter draws ids recs header get).idmap.countP fun p => p.1 = x)
          = (if (idfactor.counterPairs 0 perm).any (idfactor.emitsFor recs get ids x)
              then 1 else 0) ∧
        (∀ q, idfactor.lastEmit recs get ids x (idfactor.counterPairs 0 perm) = Option.some q →
          (idfactor.writeToWriter draws ids recs header get).idmap.lookup x
            = Option.some (ids q.1)) ∧
        (∀ q ∈ idfactor.counterPairs 0 perm, idfactor.emitsFor recs get ids x q = true →
          ¬idfactor.lastEmit recs get ids x (idfactor.counterPairs 0 perm) = Option.some q →
          ∀ pr ∈ (idfactor.writeToWriter draws ids recs header get).idmap,
            pr.2 ≠ ids q.1) := by
  have hperm := shuffle.shuffle_eq_fisherYates draws recs.length hne hd
  have hpr : (shuffle.fisherYates draws recs.length).Perm (List.range recs.length) :=
    shuffle.fyIter_perm draws recs.length hd recs.length le_rfl
  have hplen : (shuffle.fisherYates draws recs.length).length = recs.length := by
    rw [hpr.length_eq, List.length_range]
  have hpmem : ∀ i, i ∈ shuffle.fisherYates draws recs.length ↔ i < recs.length := by
    intro i
    rw [hpr.mem_iff, List.mem_range]
  have hlenp : ∀ i ∈ shuffle.fisherYates draws recs.length,
      (recs.getD i []).length = recLen := by
    intro i hi
    have hlt : i < recs.length := (hpmem i).mp hi
    rw [List.getD_eq_getElem recs [] hlt]
    exact hlen _ (List.getElem_mem hlt)
  have hloop := idfactor.writeLoop_ok recLen pos get hg recs ids
    (shuffle.fisherYates draws recs.length) 0 [] [] hlenp
  have hfatal : (idfactor.writeToWriter draws ids recs header get).fatal = false := by
    simp only [idfactor.writeToWriter, hperm, hloop]
  have hmap : (idfactor.writeToWriter draws ids recs header get).idmap
      = (idfactor.counterPairs 0 (shuffle.fisherYates draws recs.length)).foldl
          (idfactor.mapStep recs get ids) [] := by
    simp only [idfactor.writeToWriter, hperm, hloop]
  have hrows : (idfactor.writeToWriter draws ids recs header get).rows
      = (idfactor.counterPairs 0 (shuffle.fisherYates draws recs.length)).filterMap
          (idfactor.emitRow recs get ids) := by
    simp only [idfactor.writeToWriter, hperm, hloop]
    simp
  have hfstlt : ∀ q ∈ idfactor.counterPairs 0 (shuffle.fisherYates draws recs.length),
      q.1 < recs.length := by
    intro q hq
    have := idfactor.counterPairs_fst_lt (shuffle.fisherYates draws recs.length) 0 q hq
    omega
  refine ⟨shuffle.fisherYates draws recs.length, hperm, hfatal, ?_, ?_⟩
  · rw [hrows, idfactor.length_filterMap_eq]
    rfl
  · intro x
    refine ⟨?_, ?_, ?_⟩
    · rw [hmap, idfactor.mapFold_countP recs get ids x _ []]
      cases hany : (idfactor.counterPairs 0 (shuffle.fisherYates draws recs.length)).any
          (idfactor.emitsFor recs get ids x)
      · rw [if_neg (fun hc => by cases hc), if_neg (fun hc => by cases hc)]
        rfl
      · rw [if_pos rfl, if_pos rfl]
    · intro q hq
      rw [hmap, idfactor.mapFold_lookup recs get ids x _ [], hq]
    · intro q hqmem hqef hqnotlast pr hpr2 hpreq
      have hprmem : pr ∈ (idfactor.counterPairs 0 (shuffle.fisherYates draws recs.length)).foldl
          (idfactor.mapStep recs get ids) [] := by
        rw [← hmap]
        exact hpr2
      rcases idfactor.mem_mapFold recs get ids _ [] pr hprmem with hnil | ⟨q2, hq2mem, hq2emits, hq2eq⟩
      · simp at hnil
      · have hfst : q2.1 = q.1 := by
          apply hinj q2.1 (hfstlt q2 hq2mem) q.1 (hfstlt q hqmem)
          have : pr.2 = ids q2.1 := by rw [hq2eq]
          rw [← this, hpreq]
        have hq2q : q2 = q := eq_of_fst_eq_of_nodup _
          (idfactor.counterPairs_fst_nodup (shuffle.fisherYates draws recs.length) 0)
          q2 q hq2mem hqmem hfst
      -- pr is the map's entry for key (keyAt q); the map's keys are unique, so
      -- looking its key up returns pr's value, which equals ids q.1
        have hkeys : (((idfactor.counterPairs 0 (shuffle.fisherYates draws recs.length)).foldl
            (idfactor.mapStep recs get ids) []).map Prod.fst).Nodup :=
          idfactor.keys_nodup_mapFold recs get ids _ [] (by simp)
        have hlook := idfactor.lookup_of_mem_of_keys_nodup _ hkeys pr hprmem
        have hlook2 := idfactor.mapFold_lookup recs get ids pr.1
          (idfactor.counterPairs 0 (shuffle.fisherYates draws recs.length)) []
        rw [hlook] at hlook2
        cases hL : idfactor.lastEmit recs get ids pr.1
            (idfactor.counterPairs 0 (shuffle.fisherYates draws recs.length)) with
        | none =>
          rw [hL] at hlook2
          simp at hlook2
        | some qL =>
          rw [hL] at hlook2
          have hvL : pr.2 = ids qL.1 := by
            have := Option.some.inj hlook2
            rw [this]
          obtain ⟨hqLmem, _⟩ := idfactor.lastEmit_mem recs get ids pr.1 _ qL hL
          have hfstL : qL.1 = q.1 := by
            apply hinj qL.1 (hfstlt qL hqLmem) q.1 (hfstlt q hqmem)
            rw [← hvL, hpreq]
          have hqLq : qL = q := eq_of_fst_eq_of_nodup _
            (idfactor.counterPairs_fst_nodup (shuffle.fisherYates draws recs.length) 0)
            qL q hqLmem hqmem hfstL
          -- pr.1 is the key that q emits for, so lastEmit at x and at pr.1 coincide
          have hprkey : pr.1 = idfactor.keyAt recs q := by
            rw [hq2eq, hq2q]
          have hkeyx : idfactor.keyAt recs q = x := by
            have := (Bool.and_eq_true_iff.mp (by
              unfold idfactor.emitsFor at hqef
              exact hqef)).2
            exact of_decide_eq_true this
          rw [hprkey, hkeyx, hqLq] at hL
          exact hqnotlast hL


/-- A second plain record with id "1", ssn "456". -/
def dupSsn2Record : List String :=
  ["1", "", "", "", "", "", "456", "", "", "", "", "", "", ""]

theorem C10_duplicate_ids_last_write_wins_witness :
    ∃ perm, shuffle.Shuffle (fun _ => 0) ([dupSsnRecord, dupSsn2Record] : List (List String)).length
        = Option.some perm ∧
      (idfactor.writeToWriter (fun _ => 0) (fun k => if k = 0 then "a" else "b")
        [dupSsnRecord, dupSsn2Record] idfactor.ssnHeader idfactor.ToSsn).fatal = false ∧
      (idfactor.writeToWriter (fun _ => 0) (fun k => if k = 0 then "a" else "b")
        [dupSsnRecord, dupSsn2Record] idfactor.ssnHeader idfactor.ToSsn).rows.length
        = (idfactor.counterPairs 0 perm).countP
            (idfactor.emits [dupSsnRecord, dupSsn2Record] idfactor.ToSsn
              (fun k => if k = 0 then "a" else "b")) ∧
      ∀ x : String,
        ((idfactor.writeToWriter (fun _ => 0) (fun k => if k = 0 then "a" else "b")
            [dupSsnRecord, dupSsn2Record] idfactor.ssnHeader idfactor.ToSsn).idmap.countP
              fun p => p.1 = x)
          = (if (idfactor.counterPairs 0 perm).any
                (idfactor.emitsFor [dupSsnRecord, dupSsn2Record] idfactor.ToSsn
                  (fun k => if k = 0 then "a" else "b") x)
              then 1 else 0) ∧
        (∀ q, idfactor.lastEmit [dupSsnRecord, dupSsn2Record] idfactor.ToSsn
              (fun k => if k = 0 then "a" else "b") x (idfactor.counterPairs 0 perm)
            = Option.some q →
          (idfactor.writeToWriter (fun _ => 0) (fun k => if k = 0 then "a" else "b")
            [dupSsnRecord, dupSsn2Record] idfactor.ssnHeader idfactor.ToSsn).idmap.lookup x
            = Option.some (if q.1 = 0 then "a" else "b")) ∧
        (∀ q ∈ idfactor.counterPairs 0 perm,
          idfactor.emitsFor [dupSsnRecord, dupSsn2Record] idfactor.ToSsn
            (fun k => if k = 0 then "a" else "b") x q = true →
          ¬idfactor.lastEmit [dupSsnRecord, dupSsn2Record] idfactor.ToSsn
              (fun k => if k = 0 then "a" else "b") x (idfactor.counterPairs 0 perm)
            = Option.some q →
          ∀ pr ∈ (idfactor.writeToWriter (fun _ => 0) (fun k => if k = 0 then "a" else "b")
              [dupSsnRecord, dupSsn2Record] idfactor.ssnHeader idfactor.ToSsn).idmap,
            pr.2 ≠ (if q.1 = 0 then "a" else "b")) :=
  C10_duplicate_ids_last_write_wins idfactor.RecordLength 0 idfactor.ToSsn
    idfactor.toSsn_spec [dupSsnRecord, dupSsn2Record] (fun _ => 0)
    (fun k => if k = 0 then "a" else "b") idfactor.ssnHeader
    (fun i _ => Nat.zero_le i) (by decide) (by decide) (by decide)

namespace idfactor

theorem WriteMapToWriter_row (recs : List (List String))
    (nameid ssnid addressid phoneid emailid : List (String × String)) (k : Nat)
    (hk : k < recs.length) :
    (WriteMapToWriter recs nameid ssnid addressid phoneid emailid).getD (k + 1) []
      = [(recs.getD k []).getD RecordIDField "",
         mapGet nameid ((recs.getD k []).getD RecordIDField ""),
         mapGet ssnid ((recs.getD k []).getD RecordIDField ""),
         mapGet addressid ((recs.getD k []).getD RecordIDField ""),
         mapGet phoneid ((recs.getD k []).getD RecordIDField ""),
         mapGet emailid ((recs.getD k []).getD RecordIDField "")] := by
  unfold WriteMapToWriter
  rw [List.getD_cons_succ]
  rw [List.getD_eq_getElem _ [] (by simpa using hk), List.getElem_map]
  rw [List.getD_eq_getElem recs [] hk]

end idfactor

/-- C7: the mapping persister writes the map header followed by exactly one
data row per input record, in the original input order, where each row
begins with the record id and each fragment-kind cell holds the surrogate id
from that kind's result map, or the empty marker when the record's id is
absent from that map. -/
theorem C7_map_persister (recs : List (List String))
    (nameid ssnid addressid phoneid emailid : List (String × String)) :
    (idfactor.WriteMapToWriter recs nameid ssnid addressid phoneid emailid).length
      = recs.length + 1 ∧
    (idfactor.WriteMapToWriter recs nameid ssnid addressid phoneid emailid).getD 0 []
      = idfactor.mapHeader ∧
    ∀ k, k < recs.length →
      ((idfactor.WriteMapToWriter recs nameid ssnid addressid phoneid emailid).getD
          (k + 1) []).getD 0 ""
        = (recs.getD k []).getD idfactor.RecordIDField "" ∧
      ((idfactor.WriteMapToWriter recs nameid ssnid addressid phoneid emailid).getD
          (k + 1) []).length = idfactor.mapHeader.length ∧
      ∀ jm ∈ [(1, nameid), (2, ssnid), (3, addressid), (4, phoneid), (5, emailid)],
        (jm.2.lookup ((recs.getD k []).getD idfactor.RecordIDField "") = Option.none →
          ((idfactor.WriteMapToWriter recs nameid ssnid addressid phoneid emailid).getD
            (k + 1) []).getD jm.1 "" = "") ∧
        ∀ v, jm.2.lookup ((recs.getD k []).getD idfactor.RecordIDField "") = Option.some v →
          ((idfactor.WriteMapToWriter recs nameid ssnid addressid phoneid emailid).getD
            (k + 1) []).getD jm.1 "" = v := by
  refine ⟨?_, rfl, ?_⟩
  · unfold idfactor.WriteMapToWriter
    simp
  · intro k hk
    rw [idfactor.WriteMapToWriter_row recs nameid ssnid addressid phoneid emailid k hk]
    refine ⟨rfl, rfl, ?_⟩
    intro jm hjm
    simp only [List.mem_cons, List.not_mem_nil, or_false] at hjm
    rcases hjm with rfl | rfl | rfl | rfl | rfl
    · exact ⟨fun h => by
          unfold idfactor.mapGet
          rw [show List.lookup ((recs.getD k []).getD idfactor.RecordIDField "") nameid
            = Option.none from h]
          rfl,
        fun v h => by
          unfold idfactor.mapGet
          rw [show List.lookup ((recs.getD k []).getD idfactor.RecordIDField "") nameid
            = Option.some v from h]
          rfl⟩
    · exact ⟨fun h => by
          unfold idfactor.mapGet
          rw [show List.lookup ((recs.getD k []).getD idfactor.RecordIDField "") ssnid
            = Option.none from h]
          rfl,
        fun v h => by
          unfold idfactor.mapGet
          rw [show List.lookup ((recs.getD k []).getD idfactor.RecordIDField "") ssnid
            = Option.some v from h]
          rfl⟩
    · exact ⟨fun h => by
          unfold idfactor.mapGet
          rw [show List.lookup ((recs.getD k []).getD idfactor.RecordIDField "") addressid
            = Option.none from h]
          rfl,
        fun v h => by
          unfold idfactor.mapGet
          rw [show List.lookup ((recs.getD k []).getD idfactor.RecordIDField "") addressid
            = Option.some v from h]
          rfl⟩
    · exact ⟨fun h => by
          unfold idfactor.mapGet
          rw [show List.lookup ((recs.getD k []).getD idfactor.RecordIDField "") phoneid
            = Option.none from h]
          rfl,
        fun v h => by
          unfold idfactor.mapGet
          rw [show List.lookup ((recs.getD k []).getD idfactor.RecordIDField "") phoneid
            = Option.some v from h]
          rfl⟩
    · exact ⟨fun h => by
          unfold idfactor.mapGet
          rw [show List.lookup ((recs.getD k []).getD idfactor.RecordIDField "") emailid
            = Option.none from h]
          rfl,
        fun v h => by
          unfold idfactor.mapGet
          rw [show List.lookup ((recs.getD k []).getD idfactor.RecordIDField "") emailid
            = Option.some v from h]
          rfl⟩

theorem C7_map_persister_witness :
    ((idfactor.WriteMapToWriter [["1"]] [("1", "a")] [] [] [] []).getD 1 []).getD 1 "" = "a" ∧
    ((idfactor.WriteMapToWriter [["1"]] [("1", "a")] [] [] [] []).getD 1 []).getD 2 "" = "" := by
  obtain ⟨-, -, h⟩ := C7_map_persister [["1"]] [("1", "a")] [] [] [] []
  obtain ⟨-, -, h5⟩ := h 0 (by decide)
  exact ⟨(h5 (1, [("1", "a")]) (by simp)).2 "a" (by decide),
    (h5 (2, []) (by simp)).1 (by decide)⟩
